import Mathlib

/-!
Shallow embedding of the Simplex blendshape-combination solver core
(blurstudio/Simplex, `SimplexCPP`), translated from the C++ sources.

Doubles are modelled as exact rationals (`ℚ`); all comparisons performed by
the code become decidable comparisons on `ℚ`.  Out-of-bounds accesses of
`std::vector` (undefined behaviour in C++) are modelled either with `Option`
(where a claim depends on them) or with `getD` defaults (where the parser
guarantees the index is in range); each such spot is commented.

`doSoftMin` (utils.cpp) computes with `pow(·, 0.5)`, i.e. a real square
root, which has no exact rational counterpart; the solver is therefore
parameterised by the soft-min function `softF`.  Every theorem quantifies
over it, and no claim depends on its internal formula.
-/

namespace SimplexSpec

abbrev Val := ℚ

/-! ## Numeric utilities (utils.h / utils.cpp) -/

def EPS : Val := 1 / 1000000

def MAXVAL : Val := 1

def floatEQ (A B eps : Val) : Bool := |A - B| ≤ eps

def isZero (a : Val) : Bool := floatEQ a 0 EPS

def isPositive (a : Val) : Bool := a > -EPS

def isNegative (a : Val) : Bool := a < EPS

/-- `rectify` (utils.cpp): make everything positive, record the inversion,
apply upper clamping at `MAXVAL`.  The C++ writes three output vectors; we
return them as a triple `(values, clamped, inverses)`. -/
def rectify (rawVec : List Val) : List Val × List Val × List Bool :=
  let values := rawVec.map (fun v => if v < 0 then -v else v)
  let clamped := values.map (fun v => if v > MAXVAL then MAXVAL else v)
  let inverses := rawVec.map (fun v => decide (v < 0))
  (values, clamped, inverses)

/-! ## Enums (enums.h) -/

inductive ProgType where
  | linear | spline | splitSpline
deriving DecidableEq, Repr

inductive ComboSolve where
  | min | softMin | allMul | extMul | mulAvgAll | mulAvgExt | None
deriving DecidableEq, Repr

/-! ## Progression (progression.cpp, newest version) -/

/-- A progression pair `(Shape*, double)`; the shape pointer is modelled by
the shape's index in the container's `shapes` vector. -/
abbrev ProgPair := Nat × Val

structure Progression where
  name : String
  pairs : List ProgPair
  interp : ProgType
deriving DecidableEq, Repr

/-- Insertion sort, standing in for `std::sort` (whose order on tied keys
is unspecified; this model keeps ties in input order). -/
def insertSorted (le : α → α → Bool) (x : α) : List α → List α
  | [] => [x]
  | y :: ys => if le x y then x :: y :: ys else y :: insertSorted le x ys

def sortBy (le : α → α → Bool) (l : List α) : List α :=
  l.foldr (insertSorted le) []

/-- The `Progression` constructor sorts its pairs by parameter ascending
(`std::sort` with `a.second < b.second`). -/
def sortProgPairs (pairs : List ProgPair) : List ProgPair :=
  sortBy (fun a b => a.2 ≤ b.2) pairs

/-- `Progression::getInterval` (static, with `outside` flag).  Returns the
pair `(interval, outside)`. -/
def getInterval (tVal : Val) (times : List Val) : Nat × Bool :=
  if times.length ≤ 1 then (0, true)
  else
    let outside := tVal < times.getD 0 0 || tVal > times.getD (times.length - 1) 0
    if tVal ≥ times.getD (times.length - 2) 0 then (times.length - 2, outside)
    else if tVal < times.getD 0 0 then (0, outside)
    else
      -- `for (i=0; i<times.size()-2; ++i) if (times[i] <= tVal && tVal < times[i+1]) return i;`
      (((List.range (times.length - 2)).find?
          (fun i => times.getD i 0 ≤ tVal && tVal < times.getD (i + 1) 0)).getD 0,
       outside)

/-- `Progression::getRawLinearOutput`. -/
def getRawLinearOutput (pairs : List ProgPair) (tVal : Val) (mul : Val) : List ProgPair :=
  if pairs.length < 2 then []
  else
    let times := pairs.map (·.2)
    let idx := (getInterval tVal times).1
    let u := (tVal - times.getD idx 0) / (times.getD (idx + 1) 0 - times.getD idx 0)
    [((pairs.getD idx (0, 0)).1, mul * (1 - u)),
     ((pairs.getD (idx + 1) (0, 0)).1, mul * u)]

/-- `Progression::getRawSplineOutput`.  Note the source condition
`(pairs.size() <= 2) || (tVal < pairs[0]->second) && (tVal > pairs[pairs.size()-1]->second)`:
`&&` binds tighter than `||`, exactly as written here. -/
def getRawSplineOutput (pairs : List ProgPair) (tVal : Val) (mul : Val) : List ProgPair :=
  if pairs.length ≤ 2 ||
     (tVal < (pairs.getD 0 (0, 0)).2 && tVal > (pairs.getD (pairs.length - 1) (0, 0)).2) then
    getRawLinearOutput pairs tVal mul
  else
    let shapes := pairs.map (·.1)
    let st := pairs.map (·.2)
    let iv := getInterval tVal st
    let interval := iv.1
    let outside := iv.2
    let start := st.getD interval 0
    let stop := st.getD (interval + 1) 0
    let x := (tVal - start) / (stop - start)
    if outside then
      if interval = 0 then
        [(shapes.getD 0 0, mul * (1 - x)), (shapes.getD 1 0, mul * x)]
      else
        [(shapes.getD (shapes.length - 1) 0, mul * x),
         (shapes.getD (shapes.length - 2) 0, mul * (1 - x))]
    else
      let x2 := x * x
      let x3 := x2 * x
      let v0 := -(1/2) * x3 + 1 * x2 - (1/2) * x
      let v1 := (3/2) * x3 - (5/2) * x2 + 1
      let v2 := -(3/2) * x3 + 2 * x2 + (1/2) * x
      let v3 := (1/2) * x3 - (1/2) * x2
      if interval = 0 then
        [(shapes.getD 0 0, mul * (v1 + v0 + v0)),
         (shapes.getD 1 0, mul * (v2 - v0)),
         (shapes.getD 2 0, mul * v3)]
      else if interval = st.length - 2 then
        [(shapes.getD (shapes.length - 3) 0, mul * v0),
         (shapes.getD (shapes.length - 2) 0, mul * (v1 - v3)),
         (shapes.getD (shapes.length - 1) 0, mul * (v2 + v3 + v3))]
      else
        [(shapes.getD (interval - 1) 0, mul * v0),
         (shapes.getD interval 0, mul * v1),
         (shapes.getD (interval + 1) 0, mul * v2),
         (shapes.getD (interval + 2) 0, mul * v3)]

def Progression.getSplineOutput (p : Progression) (tVal mul : Val) : List ProgPair :=
  getRawSplineOutput p.pairs tVal mul

/-- `getSplitSplineOutput`: restrict the pairs to the side of zero that
contains `tVal`. -/
def Progression.getSplitSplineOutput (p : Progression) (tVal mul : Val) : List ProgPair :=
  let gt := tVal ≥ 0
  let sided := p.pairs.filter (fun pr => if gt then pr.2 ≥ 0 else pr.2 ≤ 0)
  getRawSplineOutput sided tVal mul

def Progression.getLinearOutput (p : Progression) (tVal mul : Val) : List ProgPair :=
  getRawLinearOutput p.pairs tVal mul

def Progression.getOutput (p : Progression) (tVal mul : Val) : List ProgPair :=
  match p.interp with
  | ProgType.spline => p.getSplineOutput tVal mul
  | ProgType.splitSpline => p.getSplitSplineOutput tVal mul
  | ProgType.linear => p.getLinearOutput tVal mul

/-! ## Shape (shape.cpp) -/

structure Shape where
  name : String
  index : Nat
deriving DecidableEq, Repr

/-! ## Slider (slider.h) -/

structure Slider where
  name : String
  index : Nat
  enabled : Bool
  value : Val
  multiplier : Val
  prog : Nat        -- Progression* modelled by its index in the container
deriving DecidableEq, Repr

/-- `ShapeController::clearValue`. -/
def Slider.clearValue (s : Slider) : Slider := { s with value := 0, multiplier := 1 }

/-- `Slider::storeValue`: `if (!enabled) return; this->value = values[this->index];`.
`values` receives the raw signed input vector from `Simplex::solve`.  The
unchecked `values[this->index]` is undefined behaviour when the input is
shorter than the slider's index; that case is modelled as `none`. -/
def Slider.storeValue (values : List Val) (s : Slider) : Option Slider :=
  if !s.enabled then some s
  else (values.get? s.index).map fun v => { s with value := v }

/-- Dereference of a stored `Slider*`.  The parsers only ever store in-range
pointers into the container's slider vector, so the lookup uses a default. -/
def sliderValue (sliders : List Slider) (i : Nat) : Val :=
  ((sliders.get? i).map Slider.value).getD 0

/-! ## `solveState` (combo.cpp) -/

/-- One `(Slider*, double)` combo pair; the slider pointer is modelled by the
slider's index in the container's slider vector. -/
abbrev ComboPair := Nat × Val

/-- The loop of `simplex::solveState(vals, tars, solveType, exact, value)`:
walk `vals`, rejecting (`none`) as soon as a value's sign differs from its
target's (`isPositive`, zero counted positive), otherwise collecting the
upper-clamped magnitudes.  `tars[i]` is read for `i < vals.size()`; the call
sites always pass equally long vectors (shorter `tars` modelled by 0). -/
def solveStateLoop : List Val → List Val → Option (List Val)
  | [], _ => some []
  | val :: vs, tars =>
    let tar := tars.headD 0
    let valNeg := !isPositive val
    let tarNeg := !isPositive tar
    if valNeg != tarNeg then none
    else
      let val := if valNeg then -val else val
      let val := if val > MAXVAL then MAXVAL else val
      (solveStateLoop vs (tars.drop 1)).map (val :: ·)

/-- `mn` after the loop.  The C++ initialises `mn = +infinity`, which has no
rational counterpart; the (degenerate, never exercised) empty case is 0. -/
def listMin : List Val → Val
  | [] => 0
  | v :: vs => vs.foldl min v

/-- `mx` after the loop (C++ initialises `mx = -infinity`). -/
def listMax : List Val → Val
  | [] => 0
  | v :: vs => vs.foldl max v

/-- `allMul` accumulator (initialised to 1.0). -/
def listProd (l : List Val) : Val := l.foldl (· * ·) 1

/-- `allSum` accumulator (initialised to 0.0). -/
def listSum (l : List Val) : Val := l.foldl (· + ·) 0

/-- The `switch (solveType)` of `solveState`, applied to the clamped
magnitudes collected by the loop.  `softF` stands for `doSoftMin`.  The
`ComboSolve::None` case and the `default` case both compute the `min`
formula, so `softMin` (never produced by the parser) lands there too. -/
def solveValue (softF : Val → Val → Val) (solveType : ComboSolve) (exact : Bool)
    (cl : List Val) : Val :=
  let mn := listMin cl
  let mx := listMax cl
  let allMul := listProd cl
  let allSum := listSum cl
  match solveType with
  | ComboSolve.min => if exact then mn else softF mx mn
  | ComboSolve.allMul => allMul
  | ComboSolve.extMul => mx * mn
  | ComboSolve.mulAvgExt => if isZero (mx + mn) then 0 else 2 * (mx * mn) / (mx + mn)
  | ComboSolve.mulAvgAll =>
      if isZero allSum then 0 else (cl.length : Val) * allMul / allSum
  | _ => if exact then mn else softF mx mn

/-- `simplex::solveState` on explicit `(vals, tars)`: `none` models "returned
`false` without writing `value`". -/
def solveState (softF : Val → Val → Val) (vals tars : List Val)
    (solveType : ComboSolve) (exact : Bool) : Option Val :=
  (solveStateLoop vals tars).map (solveValue softF solveType exact)

/-! ## Combo / Floater (combo.cpp, floater.h) -/

structure Combo where
  name : String
  index : Nat
  enabled : Bool
  value : Val
  multiplier : Val
  prog : Nat
  isFloater : Bool
  exact : Bool
  solveType : ComboSolve
  stateList : List ComboPair
  inverted : List Bool
  rectified : List Val
  clamped : List Val
deriving DecidableEq, Repr

instance : Inhabited Combo :=
  ⟨⟨"", 0, true, 0, 1, 0, false, true, ComboSolve.None, [], [], [], []⟩⟩

/-- The `Combo` constructor: sort the state list by slider index, then
`rectify` the target values into `(rectified, clamped, inverted)`. -/
def mkCombo (name : String) (prog : Nat) (index : Nat) (stateList : List ComboPair)
    (isFloater : Bool) (solveType : ComboSolve) : Combo :=
  let sorted := sortBy (fun a b => a.1 ≤ b.1) stateList
  let r := rectify (sorted.map (·.2))
  { name := name, index := index, enabled := true, value := 0, multiplier := 1,
    prog := prog, isFloater := isFloater, exact := true, solveType := solveType,
    stateList := sorted, inverted := r.2.2, rectified := r.1, clamped := r.2.1 }

def Combo.clearValue (c : Combo) : Combo := { c with value := 0, multiplier := 1 }

def Combo.setExact (e : Bool) (c : Combo) : Combo := { c with exact := e }

/-- `Combo::storeValue` (newest version): early-out when disabled or a
floater; otherwise `solveState(stateList, solveType, exact, value)`, which
writes `value` only when it returns `true`. -/
def Combo.storeValue (softF : Val → Val → Val) (sliders : List Slider) (c : Combo) : Combo :=
  if !c.enabled then c
  else if c.isFloater then c
  else
    match solveState softF (c.stateList.map fun st => sliderValue sliders st.1)
        (c.stateList.map (·.2)) c.solveType c.exact with
    | none => c
    | some v => { c with value := v }

/-! ## Traversal (traversal.cpp, newest version) -/

structure Traversal where
  name : String
  index : Nat
  enabled : Bool
  value : Val
  multiplier : Val
  prog : Nat
  progStartState : List ComboPair
  progDeltaState : List ComboPair
  multState : List ComboPair
  solveType : ComboSolve
  exact : Bool
deriving DecidableEq, Repr

def Traversal.clearValue (t : Traversal) : Traversal := { t with value := 0, multiplier := 1 }

/-- `Traversal::storeValue` (newest version): locals `mul = 0.0, val = 0.0`
keep their initialisation when the respective `solveState` rejects, and both
`value` and `multiplier` are unconditionally overwritten at the end. -/
def Traversal.storeValue (softF : Val → Val → Val) (sliders : List Slider)
    (t : Traversal) : Traversal :=
  if !t.enabled then t
  else
    let mul := (solveState softF (t.multState.map fun st => sliderValue sliders st.1)
      (t.multState.map (·.2)) t.solveType t.exact).getD 0
    let vals := t.progStartState.map fun st => sliderValue sliders st.1 - st.2
    let tars := t.progDeltaState.map (·.2)
    let val := (solveState softF vals tars t.solveType t.exact).getD 0
    { t with value := val, multiplier := mul }

/-! ## TriSpace (trispace.cpp) -/

structure TriSpace where
  floaters : List Nat   -- Floater* pointers, modelled as indices into the container's floater vector
  userPoints : List (List Val)
  overrideSimplices : List (List Int)
  simplexMap : List (List Int × List (List Int))   -- unordered_map modelled as an association list
deriving DecidableEq, Repr

/-- `stateEq` (trispace.cpp): compare the `Slider*` of the two state lists
elementwise — pointer identity only, the target values are NOT compared.
`rhs[i]` is only read at call sites where both lists have the same length
(same dimension bucket); shorter `rhs` is modelled with a default. -/
def stateEq (lhs rhs : List ComboPair) : Bool :=
  (List.range lhs.length).all fun i => (lhs.getD i (0, 0)).1 == (rhs.getD i (0, 0)).1

/-- The `dimmed` bucketing loop of `TriSpace::buildSpaces`: floaters grouped
by `stateList.size()`, with `dimmed` resized on demand.  Floaters are
identified by their position in the container's floater vector. -/
def dimmedBuckets (floaters : List Combo) : List (List Nat) :=
  floaters.enum.foldl
    (fun dimmed p =>
      let sls := (p.2).stateList.length
      let dimmed :=
        if dimmed.length ≤ sls then dimmed ++ List.replicate (sls + 1 - dimmed.length) []
        else dimmed
      dimmed.set sls (dimmed.getD sls [] ++ [p.1]))
    []

/-- The used-flag grouping loop inside one dimension bucket: the first
unused floater opens a bucket and absorbs every later floater whose
`stateList` is `stateEq` to its own.  The recursion is driven by a fuel
counter bounding the list length (each round strictly shrinks the list). -/
def groupDimF (floaters : List Combo) : Nat → List Nat → List (List Nat)
  | _, [] => []
  | 0, _ => []
  | fuel + 1, i :: rest =>
    let mineP := fun j =>
      stateEq (floaters.getD i default).stateList (floaters.getD j default).stateList
    (i :: rest.filter mineP) :: groupDimF floaters fuel (rest.filter fun j => !mineP j)

def groupDim (floaters : List Combo) (l : List Nat) : List (List Nat) :=
  groupDimF floaters l.length l

/-- `TriSpace::buildSpaces`, restricted to the grouping it performs: the
returned buckets are, in order, the floater groups from which the
`TriSpace(bucket)` constructor builds one TriSpace each (the constructor
then only triangulates; it never moves floaters between groups). -/
def buildSpaces (floaters : List Combo) : List (List Nat) :=
  ((dimmedBuckets floaters).map (groupDim floaters)).flatten

/-- `TriSpace::pointToSimp`: encode the orthoscheme whose interior contains
`pt` — signed axis indices sorted by magnitude descending after a leading 0.
The C++ uses an unstable `std::sort` with a strict comparison; ties between
equal magnitudes are broken arbitrarily there and stably here. -/
def pointToSimp (pt : List Val) : List Int :=
  let abspt := pt.enum.map fun p =>
    let n : Int := if isPositive p.2 then 1 else -1
    (((p.1 : Int) + 1) * n, p.2 * (n : Val))
  let sorted := sortBy (fun a b => a.2 ≤ b.2) abspt
  0 :: (sorted.reverse.map (·.1))

/-! ### Exact linear solve standing in for Eigen's column-pivot QR

`TriSpace::barycentric` solves the square system `M·x = lastVec` with
`Eigen`'s `colPivHouseholderQr`.  On an invertible `M` that returns the
unique exact solution, which the Gaussian elimination below reproduces in
exact arithmetic.  On a singular `M` the C++ obtains an unspecified
least-squares vector and relies on the non-negativity gate to reject it;
the elimination is made total for that case by assigning 0 to a pivotless
column (also garbage, also rejected by the same gate). -/

/-- First row with a non-zero leading entry, together with the remaining rows. -/
def findPivot : List (List Val) → Option (List Val × List (List Val))
  | [] => none
  | r :: rs =>
    if r.headD 0 ≠ 0 then some (r, rs)
    else (findPivot rs).map fun p => (p.1, r :: p.2)

/-- Gaussian elimination with back substitution on the augmented matrix
(`n` variables, rows of length `n+1`). -/
def gaussSolve : Nat → List (List Val) → List Val
  | 0, _ => []
  | n + 1, rows =>
    match findPivot rows with
    | none => 0 :: gaussSolve n (rows.map (List.drop 1))
    | some (p, rest) =>
      let pn := p.map (· / p.headD 1)
      let rest := rest.map fun r =>
        ((r.zip pn).map fun q => q.1 - r.headD 0 * q.2).drop 1 ++ r.drop (pn.length)
      let xs := gaussSolve n rest
      let tail := pn.drop 1
      let x := tail.getLastD 0 - ((tail.dropLast.zip xs).foldl (fun a q => a + q.1 * q.2) 0)
      x :: xs

/-- `TriSpace::barycentric`: `M(j,i) = simplex[i][j] - last[j]` (columns are
the corners minus the last corner), `b = p - last`; solve, then append
`1 - Σ x`. -/
def barycentric (simplex : List (List Val)) (p : List Val) : List Val :=
  let lastC := simplex.getLastD []
  let n := simplex.length - 1
  let rows := (List.range n).map fun j =>
    ((List.range n).map fun i =>
      ((simplex.getD i []).getD j 0) - lastC.getD j 0) ++
    [p.getD j 0 - lastC.getD j 0]
  let x := gaussSolve n rows
  x ++ [1 - listSum x]

/-- `TriSpace::userSimplexToCorners`: decode a (possibly user-point
bearing) sub-simplex encoding against the original orthoscheme encoding,
producing the corner points and, for each corner, the user/floater index it
came from (or `-1`).  `simplexLen` is `simplex.size()` of the full encoding;
`currVec` is the mutable running corner (initially all zeros). -/
def userCornersLoop (userPoints : List (List Val)) (simplexLen : Nat) :
    List Int → List Int → List Val → List (List Val) × List Int
  | [], _, _ => ([], [])
  | s :: ss, os, currVec =>
    let o := os.headD 0
    if s = 0 then
      let r := userCornersLoop userPoints simplexLen ss (os.drop 1) currVec
      (currVec :: r.1, -1 :: r.2)
    else
      let idx := s.natAbs
      let oidx := o.natAbs
      let vl : Val := if o > 0 then 1 else -1
      let currVec := if oidx ≠ 0 then currVec.set (oidx - 1) vl else currVec
      if simplexLen ≤ idx then
        let uidx := idx - simplexLen
        let r := userCornersLoop userPoints simplexLen ss (os.drop 1) currVec
        (userPoints.getD uidx [] :: r.1, (uidx : Int) :: r.2)
      else
        let r := userCornersLoop userPoints simplexLen ss (os.drop 1) currVec
        (currVec :: r.1, -1 :: r.2)

def userSimplexToCorners (userPoints : List (List Val)) (simplex original : List Int) :
    List (List Val) × List Int :=
  userCornersLoop userPoints simplex.length simplex original
    (List.replicate (simplex.length - 1) 0)

/-- The gathering loop at the top of `TriSpace::storeValue`: walk the first
floater's `stateList` collecting `(inverses[idx], clamped[idx])`; the whole
`storeValue` returns as soon as some clamped participating value `isZero`. -/
def gatherPoint (clamped : List Val) (inverses : List Bool) :
    List ComboPair → Option (List Bool × List Val)
  | [] => some ([], [])
  | p :: ps =>
    let inv := inverses.getD p.1 false
    let cval := clamped.getD p.1 0
    if isZero cval then none
    else (gatherPoint clamped inverses ps).map fun r => (inv :: r.1, cval :: r.2)

/-- The assignment step for an accepted sub-simplex:
`if (fcIdx != -1) floaters[fcIdx]->value = b[i];` — writes go through the
TriSpace's floater pointers into the container's floater vector `fl`. -/
def assignFloaters (tsFloaters : List Nat) (b : List Val) (fcs : List Int)
    (fl : List Combo) : List Combo :=
  (b.zip fcs).foldl
    (fun fl q =>
      if q.2 ≠ -1 then
        let g := tsFloaters.getD q.2.toNat 0
        fl.set g { fl.getD g default with value := q.1 }
      else fl)
    fl

/-- The candidate loop of `TriSpace::storeValue`: decode each sub-simplex,
take barycentric coordinates of `vec`, accept the first whose coordinates
are all `isPositive`, assign and `break`. -/
def acceptLoop (tsFloaters : List Nat) (userPoints : List (List Val))
    (majorSimp : List Int) (vec : List Val) :
    List (List Int) → List Combo → List Combo
  | [], fl => fl
  | sm :: rest, fl =>
    let ec := userSimplexToCorners userPoints sm majorSimp
    let b := barycentric ec.1 vec
    if b.all isPositive then assignFloaters tsFloaters b ec.2 fl
    else acceptLoop tsFloaters userPoints majorSimp vec rest fl

/-- `TriSpace::storeValue`: mutates the container's floater vector `fl`.
`floaters[0]` on an empty group would be undefined behaviour in C++ (the
constructor only ever receives non-empty groups); modelled with defaults. -/
def TriSpace.storeValue (clamped : List Val) (inverses : List Bool)
    (fl : List Combo) (ts : TriSpace) : List Combo :=
  let f0 := fl.getD (ts.floaters.headD 0) default
  match gatherPoint clamped inverses f0.stateList with
  | none => fl
  | some si =>
    if f0.inverted ≠ si.1 then fl
    else
      let majorSimp := pointToSimp si.2
      match ts.simplexMap.lookup majorSimp with
      | none => fl
      | some sms => acceptLoop ts.floaters ts.userPoints majorSimp si.2 sms fl

/-! ## Simplex container (simplex.h / simplex.cpp, newest version) -/

structure Simplex where
  shapes : List Shape
  progs : List Progression
  sliders : List Slider
  combos : List Combo
  floaters : List Combo     -- Floater is a Combo subclass with no extra state
  spaces : List TriSpace
  traversals : List Traversal
  built : Bool
  loaded : Bool
  hasParseError : Bool
  parseError : Option String   -- `parseError` string; `none` for the default-constructed empty string
  parseErrorOffset : Nat
deriving DecidableEq, Repr

/-- A default-constructed `Simplex()`. -/
def Simplex.empty : Simplex :=
  { shapes := [], progs := [], sliders := [], combos := [], floaters := [],
    spaces := [], traversals := [], built := false, loaded := false,
    hasParseError := false, parseError := none, parseErrorOffset := 0 }

/-- `Simplex::clearValues`. -/
def Simplex.clearValues (s : Simplex) : Simplex :=
  { s with
    sliders := s.sliders.map Slider.clearValue,
    combos := s.combos.map Combo.clearValue,
    floaters := s.floaters.map Combo.clearValue,
    traversals := s.traversals.map Traversal.clearValue }

/-- `Simplex::setExactSolve`. -/
def Simplex.setExactSolve (exact : Bool) (s : Simplex) : Simplex :=
  { s with combos := s.combos.map (Combo.setExact exact) }

/-- `Simplex::clear`. -/
def Simplex.clear (s : Simplex) : Simplex :=
  { s with shapes := [], progs := [], sliders := [], combos := [], floaters := [],
           spaces := [], traversals := [], built := false, loaded := false,
           hasParseError := false }

/-- `Simplex::build`. -/
def Simplex.build (s : Simplex) : Simplex :=
  -- buildSpaces groups the floaters; the triangulation data inside each
  -- TriSpace is built by the constructor and is not needed by the claims
  -- settled here, so the groups are stored and the maps are built empty.
  { s with
    spaces := (buildSpaces s.floaters).map fun g =>
      { floaters := g, userPoints := [], overrideSimplices := [], simplexMap := [] },
    built := true }

/-- `ShapeController::solve` (shapeController.cpp): fold one controller's
contribution into the accumulator and the running `maxAct`. -/
def accumOne (progs : List Progression) (value multiplier : Val) (progIdx : Nat)
    (acc : List Val × Val) : List Val × Val :=
  let vm := |value * multiplier|
  let maxAct := if vm > acc.2 then vm else acc.2
  let shapeVals := (progs.getD progIdx ⟨"", [], ProgType.spline⟩).getOutput value multiplier
  -- `accumulator[svp.first->getIndex()] += svp.second;` — the parser
  -- guarantees every shape index is in range (List.set is a no-op otherwise).
  (shapeVals.foldl (fun a sv => a.set sv.1 (a.getD sv.1 0 + sv.2)) acc.1, maxAct)

/-- `Simplex::solve` (newest version): rectify; `storeValue` on sliders,
combos, spaces, traversals (in that order); accumulate contributions from
sliders, combos, floaters, traversals while tracking `maxAct`; finally
`output[0] = 1.0 - maxAct` when the output is non-empty.  The updated
controller states (the C++ mutates them in place) are returned together
with the output vector; `none` models the undefined behaviour of a slider
reading past the end of the input vector. -/
def Simplex.solve (softF : Val → Val → Val) (s : Simplex) (vec : List Val) :
    Option (Simplex × List Val) := do
  let r := rectify vec
  let sliders ← s.sliders.mapM (Slider.storeValue vec)
  let combos := s.combos.map (Combo.storeValue softF sliders)
  let floaters := s.spaces.foldl (fun fl sp => sp.storeValue r.2.1 r.2.2 fl) s.floaters
  let traversals := s.traversals.map (Traversal.storeValue softF sliders)
  let output := List.replicate s.shapes.length (0 : Val)
  let om := sliders.foldl (fun om sl => accumOne s.progs sl.value sl.multiplier sl.prog om)
    (output, 0)
  let om := combos.foldl (fun om c => accumOne s.progs c.value c.multiplier c.prog om) om
  let om := floaters.foldl (fun om c => accumOne s.progs c.value c.multiplier c.prog om) om
  let om := traversals.foldl (fun om t => accumOne s.progs t.value t.multiplier t.prog om) om
  let output := if om.1.isEmpty then om.1 else om.1.set 0 (1 - om.2)
  some ({ s with sliders := sliders, combos := combos, floaters := floaters,
                 traversals := traversals }, output)

/-! ## JSON documents (rapidjson model)

A structurally parsed document.  rapidjson keeps integer-parsed numbers
(`IsInt`/`IsUint` true, `IsDouble` false) distinct from numbers carrying a
fraction or exponent (`IsDouble` true); both answer `IsNumber`. -/

inductive JNum where
  | int (n : Int)
  | dbl (q : Val)
deriving DecidableEq, Repr

def JNum.toVal : JNum → Val
  | JNum.int n => (n : Val)
  | JNum.dbl q => q

inductive JValue where
  | null
  | bool (b : Bool)
  | num (n : JNum)
  | str (s : String)
  | arr (xs : List JValue)
  | obj (fields : List (String × JValue))
deriving Repr

def JValue.isObject : JValue → Bool
  | JValue.obj _ => true
  | _ => false

def JValue.isArray : JValue → Bool
  | JValue.arr _ => true
  | _ => false

def JValue.isString : JValue → Bool
  | JValue.str _ => true
  | _ => false

/-- `Begin()..End()` / `Size()`: rapidjson asserts on a non-array; the call
sites either checked `IsArray` or would assert (modelled as empty). -/
def JValue.elems : JValue → List JValue
  | JValue.arr xs => xs
  | _ => []

/-- `operator[](SizeType)`: rapidjson asserts when out of range; modelled
with `null`, which then fails every type check. -/
def JValue.atIdx (v : JValue) (i : Nat) : JValue := v.elems.getD i JValue.null

/-- `FindMember` (first matching member; asserts on non-objects). -/
def JValue.findMember (v : JValue) (name : String) : Option JValue :=
  match v with
  | JValue.obj fs => fs.lookup name
  | _ => none

/-- `(size_t)GetInt()` followed by a `>= size` bound check: a negative int
wraps to a huge `size_t` and therefore also fails the check. -/
def idxOK (x : Int) (n : Nat) : Bool := 0 ≤ x && x.toNat < n

/-- `ShapeController::getEnabled`: optional `enabled` member, `true` when
missing or not a bool. -/
def getEnabled (v : JValue) : Bool :=
  match v.findMember "enabled" with
  | some (JValue.bool b) => b
  | _ => true

/-- `simplex::getSolveType`: optional `solveType` member; unknown strings,
non-strings and absence all give `ComboSolve::None`. -/
def getSolveTypeJ (v : JValue) : ComboSolve :=
  match v.findMember "solveType" with
  | some (JValue.str sv) =>
    if sv = "min" then ComboSolve.min
    else if sv = "allMul" then ComboSolve.allMul
    else if sv = "extMul" then ComboSolve.extMul
    else if sv = "mulAvgExt" then ComboSolve.mulAvgExt
    else if sv = "mulAvgAll" then ComboSolve.mulAvgAll
    else ComboSolve.None
  | _ => ComboSolve.None

/-! ## Element parsers

Each parser is factored as an extraction step (`...payload`, holding every
check the C++ performs, in source order) followed by a push of the fully
constructed entities; the C++ bodies likewise run all checks before their
final `push_back` calls, so a failed element leaves the container untouched
while previously parsed elements remain. -/

def shapeV1payload (v : JValue) : Option String :=
  match v with
  | JValue.str name => some name
  | _ => none

def shapeV2payload (v : JValue) : Option String :=
  if !v.isObject then none
  else
    match v.findMember "name" with
    | some (JValue.str name) => some name
    | _ => none

/-- `Shape::parseJSONv1`: the element must be a string. -/
def Shape.parseJSONv1 (v : JValue) (index : Nat) (s : Simplex) : Option Simplex :=
  (shapeV1payload v).map fun name => { s with shapes := s.shapes ++ [⟨name, index⟩] }

/-- `Shape::parseJSONv2`: an object with a string `name`. -/
def Shape.parseJSONv2 (v : JValue) (index : Nat) (s : Simplex) : Option Simplex :=
  (shapeV2payload v).map fun name => { s with shapes := s.shapes ++ [⟨name, index⟩] }

def Shape.parseJSONv3 (v : JValue) (index : Nat) (s : Simplex) : Option Simplex :=
  Shape.parseJSONv2 v index s

/-- The pair loop of `Progression::parseJSONv1`: `jindices[j]` must be an
int, `jweights[j]` a number, and the shape index in range. -/
def progPairsV1 (shapesLen : Nat) : List JValue → List JValue → Option (List ProgPair)
  | [], _ => some []
  | jx :: jxs, jws =>
    match jx, jws.headD JValue.null with
    | JValue.num (JNum.int x), JValue.num w =>
      if idxOK x shapesLen then
        (progPairsV1 shapesLen jxs (jws.drop 1)).map ((x.toNat, w.toVal) :: ·)
      else none
    | _, _ => none

def progV1payload (v : JValue) (s : Simplex) : Option Progression :=
  if !v.isArray then none
  else
    let jindices := v.atIdx 1
    let jweights := v.atIdx 2
    if !(jweights.isArray && jindices.isArray) then none
    else
      match progPairsV1 s.shapes.length jindices.elems jweights.elems with
      | none => none
      | some pairs =>
        match v.atIdx 0 with
        | JValue.str name =>
          if v.elems.length > 3 then
            match v.atIdx 3 with
            | JValue.str istr =>
              some ⟨name, sortProgPairs pairs,
                    if istr = "linear" then ProgType.linear else ProgType.spline⟩
            | _ => none
          else some ⟨name, sortProgPairs pairs, ProgType.spline⟩
        | _ => none

/-- `Progression::parseJSONv1` (the `Progression` constructor sorts the
pairs by parameter, hence `sortProgPairs` inside the payload). -/
def Progression.parseJSONv1 (v : JValue) (_index : Nat) (s : Simplex) : Option Simplex :=
  (progV1payload v s).map fun p => { s with progs := s.progs ++ [p] }

/-- The pair loop of `Progression::parseJSONv2`: each pair must be an array
whose first entry is an int and whose second is a double (an
integer-parsed JSON number fails the `IsDouble` check). -/
def progPairsV2 (shapesLen : Nat) : List JValue → Option (List ProgPair)
  | [] => some []
  | v :: vs =>
    if !v.isArray then none
    else
      match v.atIdx 0, v.atIdx 1 with
      | JValue.num (JNum.int x), JValue.num (JNum.dbl y) =>
        if idxOK x shapesLen then (progPairsV2 shapesLen vs).map ((x.toNat, y) :: ·)
        else none
      | _, _ => none

def progV2payload (v : JValue) (s : Simplex) : Option Progression :=
  if !v.isObject then none
  else
    match v.findMember "name", v.findMember "pairs", v.findMember "interp" with
    | some (JValue.str name), some (JValue.arr pairsV), some (JValue.str interpStr) =>
      (progPairsV2 s.shapes.length pairsV).map fun pairs =>
        ⟨name, sortProgPairs pairs,
         if interpStr = "linear" then ProgType.linear
         else if interpStr = "splitspline" then ProgType.splitSpline
         else ProgType.spline⟩
    | _, _, _ => none

def Progression.parseJSONv2 (v : JValue) (_index : Nat) (s : Simplex) : Option Simplex :=
  (progV2payload v s).map fun p => { s with progs := s.progs ++ [p] }

def Progression.parseJSONv3 (v : JValue) (index : Nat) (s : Simplex) : Option Simplex :=
  Progression.parseJSONv2 v index s

def sliderV1payload (v : JValue) (s : Simplex) : Option (String × Nat × Bool) :=
  match v.atIdx 0, v.atIdx 1 with
  | JValue.str name, JValue.num (JNum.int slidx) =>
    if idxOK slidx s.progs.length then some (name, slidx.toNat, true) else none
  | _, _ => none

def sliderV2payload (v : JValue) (s : Simplex) : Option (String × Nat × Bool) :=
  if !v.isObject then none
  else
    match v.findMember "name", v.findMember "prog" with
    | some (JValue.str name), some (JValue.num (JNum.int slidx)) =>
      if idxOK slidx s.progs.length then some (name, slidx.toNat, getEnabled v) else none
    | _, _ => none

def pushSlider (index : Nat) (pl : String × Nat × Bool) (s : Simplex) : Simplex :=
  { s with sliders := s.sliders ++
      [{ name := pl.1, index := index, enabled := pl.2.2, value := 0, multiplier := 1,
         prog := pl.2.1 }] }

def Slider.parseJSONv1 (v : JValue) (index : Nat) (s : Simplex) : Option Simplex :=
  (sliderV1payload v s).map fun pl => pushSlider index pl s

def Slider.parseJSONv2 (v : JValue) (index : Nat) (s : Simplex) : Option Simplex :=
  (sliderV2payload v s).map fun pl => pushSlider index pl s

def Slider.parseJSONv3 (v : JValue) (index : Nat) (s : Simplex) : Option Simplex :=
  Slider.parseJSONv2 v index s

/-- Is this target value one that makes the combo a floater (`|value|`
differs from 1 and is not zero)? -/
def floaterTarget (slval : Val) : Bool := !floatEQ |slval| 1 EPS && !isZero slval

/-- The state loop of `Combo::parseJSONv1`: `jcstate[j][0]` int,
`jcstate[j][1]` any number. -/
def comboPairsV1 (slidersLen : Nat) : List JValue → Option (List ComboPair × Bool)
  | [] => some ([], false)
  | v :: vs =>
    match v.atIdx 0, v.atIdx 1 with
    | JValue.num (JNum.int slidx), JValue.num w =>
      if idxOK slidx slidersLen then
        (comboPairsV1 slidersLen vs).map fun r =>
          ((slidx.toNat, w.toVal) :: r.1, floaterTarget w.toVal || r.2)
      else none
    | _, _ => none

/-- `simplex::getSolvePairs` (used by Combo v2 and Traversal v3): each pair
must be an array of an int and a double (`IsDouble`). -/
def getSolvePairs (slidersLen : Nat) : List JValue → Option (List ComboPair × Bool)
  | [] => some ([], false)
  | v :: vs =>
    if !v.isArray then none
    else
      match v.atIdx 0, v.atIdx 1 with
      | JValue.num (JNum.int slidx), JValue.num (JNum.dbl slval) =>
        if idxOK slidx slidersLen then
          (getSolvePairs slidersLen vs).map fun r =>
            ((slidx.toNat, slval) :: r.1, floaterTarget slval || r.2)
        else none
      | _, _ => none

def comboV1payload (v : JValue) (s : Simplex) :
    Option (String × List ComboPair × Bool × Nat) :=
  match v.atIdx 0, v.atIdx 1 with
  | JValue.str name, JValue.num (JNum.int pidx) =>
    -- `val[2]` is iterated without an `IsArray` check (rapidjson would
    -- assert on a non-array; modelled as an empty element list).
    match comboPairsV1 s.sliders.length (v.atIdx 2).elems with
    | none => none
    | some st =>
      if idxOK pidx s.progs.length then some (name, st.1, st.2, pidx.toNat) else none
  | _, _ => none

def comboV2payload (v : JValue) (s : Simplex) :
    Option (String × List ComboPair × Bool × Nat) :=
  if !v.isObject then none
  else
    match v.findMember "name", v.findMember "prog", v.findMember "pairs" with
    | some (JValue.str name), some (JValue.num (JNum.int pidx)), some (JValue.arr pairsV) =>
      match getSolvePairs s.sliders.length pairsV with
      | none => none
      | some st =>
        if idxOK pidx s.progs.length then some (name, st.1, st.2, pidx.toNat) else none
    | _, _, _ => none

/-- The pushes at the end of `Combo::parseJSONv1/v2`: a floater is pushed
to `floaters` (as a `Floater`, whose constructor passes `ComboSolve::None`)
*and* to `combos` (with the parsed solve type). -/
def pushCombo (index : Nat) (solveType : ComboSolve) (enabled : Bool)
    (pl : String × List ComboPair × Bool × Nat) (s : Simplex) : Simplex :=
  let s :=
    if pl.2.2.1 then
      { s with floaters := s.floaters ++
          [{ mkCombo pl.1 pl.2.2.2 index pl.2.1 true ComboSolve.None with enabled := enabled }] }
    else s
  { s with combos := s.combos ++
      [{ mkCombo pl.1 pl.2.2.2 index pl.2.1 pl.2.2.1 solveType with enabled := enabled }] }

def Combo.parseJSONv1 (v : JValue) (index : Nat) (s : Simplex) : Option Simplex :=
  (comboV1payload v s).map fun pl => pushCombo index ComboSolve.None true pl s

def Combo.parseJSONv2 (v : JValue) (index : Nat) (s : Simplex) : Option Simplex :=
  (comboV2payload v s).map fun pl => pushCombo index (getSolveTypeJ v) (getEnabled v) pl s

def Combo.parseJSONv3 (v : JValue) (index : Nat) (s : Simplex) : Option Simplex :=
  Combo.parseJSONv2 v index s

/-- `!type.empty() && type[0] == 'S'`. -/
def startsWithS (ty : String) : Bool := ty.data.headD ' ' == 'S'

/-- Resolve a controller reference of `Traversal::parseJSONv2`: `'S'` picks
a slider (bounds-checked against the slider vector), anything else a combo
(bounds-checked against the combo vector). -/
def ctrlRef (ty : String) (idx : Int) (s : Simplex) : Option (Sum Nat Nat) :=
  if startsWithS ty then
    if idxOK idx s.sliders.length then some (Sum.inl idx.toNat) else none
  else
    if idxOK idx s.combos.length then some (Sum.inr idx.toNat) else none

/-- The legacy `Traversal` constructor (progress/multiplier controller plus
flip flags).  The C++ leaves the `solveType` member uninitialised here
(indeterminate); modelled as `ComboSolve.None`. -/
def mkTraversalLegacy (name : String) (prog index : Nat)
    (progressCtrl multiplierCtrl : Sum Nat Nat) (valueFlip multiplierFlip : Bool)
    (s : Simplex) : Traversal :=
  let multState :=
    match multiplierCtrl with
    | Sum.inl sl => [(sl, if multiplierFlip then (-1 : Val) else 1)]
    | Sum.inr ci => (s.combos.getD ci default).stateList
  let pd : List ComboPair × List ComboPair :=
    match progressCtrl with
    | Sum.inl sl => ([(sl, (0 : Val))], [(sl, if valueFlip then (-1 : Val) else 1)])
    | Sum.inr ci =>
      let stl := (s.combos.getD ci default).stateList
      (stl.map (fun p => (p.1, (0 : Val))), stl)
  { name := name, index := index, enabled := true, value := 0, multiplier := 1,
    prog := prog, progStartState := pd.1, progDeltaState := pd.2,
    multState := multState, solveType := ComboSolve.None, exact := true }

/-- The current `Traversal` constructor (two endpoint combo states).
`startSliders`/`endSliders` are maps built by repeated assignment (with
duplicate sliders the last value wins, hence the reversed lookups);
`allSliders` is an `unordered_set` whose iteration order is unspecified in
C++ and modelled as first-appearance order. -/
def mkTraversalV3 (name : String) (prog index : Nat)
    (startPairs endPairs : List ComboPair) (solveType : ComboSolve) : Traversal :=
  let startOf := fun k => startPairs.reverse.lookup k
  let endOf := fun k => endPairs.reverse.lookup k
  let keys := (startPairs.map (·.1) ++ endPairs.map (·.1)).dedup
  let r := keys.foldl
    (fun (acc : List ComboPair × List ComboPair × List ComboPair) k =>
      match startOf k, endOf k with
      | none, some e => (acc.1 ++ [(k, 0)], acc.2.1 ++ [(k, e)], acc.2.2)
      | some st, none => (acc.1 ++ [(k, st)], acc.2.1 ++ [(k, -st)], acc.2.2)
      | some st, some e =>
        if st = e then (acc.1, acc.2.1, acc.2.2 ++ [(k, st)])
        else (acc.1 ++ [(k, st)], acc.2.1 ++ [(k, e - st)], acc.2.2)
      | none, none => acc)
    ([], [], [])
  { name := name, index := index, enabled := true, value := 0, multiplier := 1,
    prog := prog, progStartState := r.1, progDeltaState := r.2.1,
    multState := r.2.2, solveType := solveType, exact := true }

def travV2payload (v : JValue) (s : Simplex) : Option Traversal :=
  if !v.isObject then none
  else
    match v.findMember "name", v.findMember "prog", v.findMember "progressType",
          v.findMember "progressControl", v.findMember "progressFlip" with
    | some (JValue.str name), some (JValue.num (JNum.int pidx)),
      some (JValue.str pctype), some (JValue.num (JNum.int pcidx)),
      some (JValue.bool pcFlip) =>
      match v.findMember "multiplierType", v.findMember "multiplierControl",
            v.findMember "multiplierFlip" with
      | some (JValue.str mctype), some (JValue.num (JNum.int mcidx)),
        some (JValue.bool mcFlip) =>
        match ctrlRef pctype pcidx s, ctrlRef mctype mcidx s with
        | some pcItem, some mcItem =>
          if idxOK pidx s.progs.length then
            some { mkTraversalLegacy name pidx.toNat 0 pcItem mcItem pcFlip mcFlip s with
                   enabled := getEnabled v }
          else none
        | _, _ => none
      | _, _, _ => none
    | _, _, _, _, _ => none

def Traversal.parseJSONv2 (v : JValue) (index : Nat) (s : Simplex) : Option Simplex :=
  (travV2payload v s).map fun t =>
    { s with traversals := s.traversals ++ [{ t with index := index }] }

def Traversal.parseJSONv1 (v : JValue) (index : Nat) (s : Simplex) : Option Simplex :=
  Traversal.parseJSONv2 v index s

def travV3payload (v : JValue) (s : Simplex) : Option Traversal :=
  if !v.isObject then none
  else
    match v.findMember "name", v.findMember "prog", v.findMember "start",
          v.findMember "end" with
    | some (JValue.str name), some (JValue.num (JNum.int pidx)),
      some (JValue.arr startV), some (JValue.arr endV) =>
      match getSolvePairs s.sliders.length startV, getSolvePairs s.sliders.length endV with
      | some stP, some enP =>
        if idxOK pidx s.progs.length then
          some { mkTraversalV3 name pidx.toNat 0 stP.1 enP.1 (getSolveTypeJ v) with
                 enabled := getEnabled v }
        else none
      | _, _ => none
    | _, _, _, _ => none

def Traversal.parseJSONv3 (v : JValue) (index : Nat) (s : Simplex) : Option Simplex :=
  (travV3payload v s).map fun t =>
    { s with traversals := s.traversals ++ [{ t with index := index }] }

/-! ## Document-level parsing (simplex.cpp, newest version) -/

/-- The per-section element loop of `Simplex::parseJSONversion`: parse each
element in order; a failing element aborts with `false`, leaving the
container as mutated so far. -/
def parseElems (p : JValue → Nat → Simplex → Option Simplex) :
    List JValue → Nat → Simplex → Bool × Simplex
  | [], _, s => (true, s)
  | x :: rest, i, s =>
    match p x i s with
    | none => (false, s)
    | some s' => parseElems p rest (i + 1) s'

/-- `if (version == 3) ...v3 else if (version == 2) ...v2 else ...v1` —
every version other than 2 and 3 falls through to the v1 parser. -/
def shapeParserFor (version : Nat) : JValue → Nat → Simplex → Option Simplex :=
  if version = 3 then Shape.parseJSONv3
  else if version = 2 then Shape.parseJSONv2
  else Shape.parseJSONv1

def progParserFor (version : Nat) : JValue → Nat → Simplex → Option Simplex :=
  if version = 3 then Progression.parseJSONv3
  else if version = 2 then Progression.parseJSONv2
  else Progression.parseJSONv1

def sliderParserFor (version : Nat) : JValue → Nat → Simplex → Option Simplex :=
  if version = 3 then Slider.parseJSONv3
  else if version = 2 then Slider.parseJSONv2
  else Slider.parseJSONv1

def comboParserFor (version : Nat) : JValue → Nat → Simplex → Option Simplex :=
  if version = 3 then Combo.parseJSONv3
  else if version = 2 then Combo.parseJSONv2
  else Combo.parseJSONv1

def travParserFor (version : Nat) : JValue → Nat → Simplex → Option Simplex :=
  if version = 3 then Traversal.parseJSONv3
  else if version = 2 then Traversal.parseJSONv2
  else Traversal.parseJSONv1

/-- The `if (!ret) return false;` early-return chaining between sections. -/
def parseSeq (r : Bool × Simplex) (k : Simplex → Bool × Simplex) : Bool × Simplex :=
  if r.1 then k r.2 else r

/-- The optional `combos` section: absent means success without work. -/
def parseCombosSection (d : JValue) (version : Nat) (s : Simplex) : Bool × Simplex :=
  match d.findMember "combos" with
  | none => (true, s)
  | some jcombos =>
    if !jcombos.isArray then (false, s)
    else parseElems (comboParserFor version) jcombos.elems 0 s

/-- The optional `traversals` section. -/
def parseTravsSection (d : JValue) (version : Nat) (s : Simplex) : Bool × Simplex :=
  match d.findMember "traversals" with
  | none => (true, s)
  | some jtravs =>
    if !jtravs.isArray then (false, s)
    else parseElems (travParserFor version) jtravs.elems 0 s

/-- `Simplex::parseJSONversion`: required `shapes`/`progressions`/`sliders`
array members, optional `combos`/`traversals`; sections parsed in that
order, every element failure fatal (returning `false` with the container as
mutated so far); `loaded = true` only on full success. -/
def Simplex.parseJSONversion (s : Simplex) (d : JValue) (version : Nat) : Bool × Simplex :=
  match d.findMember "shapes", d.findMember "progressions", d.findMember "sliders" with
  | some jshapes, some jprogs, some jsliders =>
    if !(jshapes.isArray && jsliders.isArray && jprogs.isArray) then (false, s)
    else
      parseSeq (parseElems (shapeParserFor version) jshapes.elems 0 s) fun s1 =>
      parseSeq (parseElems (progParserFor version) jprogs.elems 0 s1) fun s2 =>
      parseSeq (parseElems (sliderParserFor version) jsliders.elems 0 s2) fun s3 =>
      parseSeq (parseCombosSection d version s3) fun s4 =>
      parseSeq (parseTravsSection d version s4) fun s5 =>
      (true, { s5 with loaded := true })
  | _, _, _ => (false, s)

/-- `Simplex::parseJSON` on a structurally parseable document (the
rapidjson `HasParseError` branch — the only writer of `parseError` and
`parseErrorOffset` — is outside this model, since its input is already a
parsed `JValue`).  `encodingVersion` defaults to 1 and must be an unsigned
integer (`IsUint`, i.e. an integer in `[0, 2^32)` — rapidjson's `IsUint` is
false for larger integers); the version value itself is NOT validated
further. -/
def Simplex.parseJSON (s : Simplex) (d : JValue) : Bool × Simplex :=
  let s := { s with built := false, hasParseError := false }
  match d.findMember "encodingVersion" with
  | none => s.parseJSONversion d 1
  | some (JValue.num (JNum.int n)) =>
    if 0 ≤ n ∧ n < 4294967296 then s.parseJSONversion d n.toNat else (false, s)
  | some _ => (false, s)

/-! ## Claim-side definitions

Vocabulary used by the theorem statements to describe what the code
computes, written directly from the specification's wording. -/

/-- The spec's "take `|v|`, clamp to 1", with the library's epsilon sign
convention (`isPositive`, under which values in `(-EPS, 0)` count as
positive and are not negated — exactly what the `solveState` loop does). -/
def clampMag (v : Val) : Val :=
  let v := if isPositive v then v else -v
  if v > MAXVAL then MAXVAL else v

/-- "`sign(v) ≠ sign(target)` (treating 0 as positive)". -/
def signMismatch (val tar : Val) : Bool := (!isPositive val) != (!isPositive tar)

/-- Some participating value's sign disagrees with its target's. -/
def signMismatchAny (vals tars : List Val) : Bool :=
  (vals.zip tars).any fun q => signMismatch q.1 q.2

/-- `|value · multiplier|` for every controller of a container, in the
order the solver visits them (sliders, combos, floaters, traversals). -/
def controllerActs (s : Simplex) : List Val :=
  s.sliders.map (fun c => |c.value * c.multiplier|) ++
  s.combos.map (fun c => |c.value * c.multiplier|) ++
  s.floaters.map (fun c => |c.value * c.multiplier|) ++
  s.traversals.map (fun c => |c.value * c.multiplier|)

/-- The `maxAct` of one solve, computed from the stored controller states. -/
def maxActOf (s : Simplex) : Val := (controllerActs s).foldl max 0

/-- A sub-simplex is accepted when the barycentric coordinates of the input
point at its decoded corners are all non-negative (the library's
`isPositive`, zero within `EPS` counting as non-negative). -/
def acceptsSub (userPoints : List (List Val)) (majorSimp : List Int) (vec : List Val)
    (sm : List Int) : Bool :=
  (barycentric (userSimplexToCorners userPoints sm majorSimp).1 vec).all isPositive

/-- The error-surface fields of the container are untouched (`parseError`
and its offset are only written by the rapidjson syntax-error branch). -/
def presErr (s s' : Simplex) : Prop :=
  s'.hasParseError = s.hasParseError ∧ s'.parseError = s.parseError ∧
  s'.parseErrorOffset = s.parseErrorOffset

/-- `presErr` together with preservation of the `loaded` flag. -/
def presFlags (s s' : Simplex) : Prop := presErr s s' ∧ s'.loaded = s.loaded

/-- The solve-invariant part of a floater: `TriSpace::storeValue` writes
only `value`, never the state list or the cached orthant. -/
def cfgC (c : Combo) : List ComboPair × List Bool := (c.stateList, c.inverted)

/-- The referential-integrity invariant the parser establishes: every
slider's own index and every slider index a TriSpace's lead floater refers
to lies inside the slider vector. -/
def Simplex.wfIndices (s : Simplex) : Prop :=
  (∀ sl ∈ s.sliders, sl.index < s.sliders.length) ∧
  (∀ sp ∈ s.spaces, ∀ p ∈ (s.floaters.getD (sp.floaters.headD 0) default).stateList,
      p.1 < s.sliders.length)

instance (s : Simplex) : Decidable s.wfIndices := by
  unfold Simplex.wfIndices; infer_instance

/-! ## Concrete fixtures used by witnesses and counterexamples -/

/-- A stand-in for `doSoftMin`; the fixtures below all run with
`exact = true`, so the soft-min branch is never taken. -/
def zeroSoft : Val → Val → Val := fun _ _ => 0

/-- Shapes `[rest, A, C]`; a slider on input 0 driving `A` linearly, and a
min-combo over that slider (target 1) driving `C` linearly. -/
def sA : Simplex :=
  { Simplex.empty with
    shapes := [⟨"rest", 0⟩, ⟨"A", 1⟩, ⟨"C", 2⟩],
    progs := [⟨"pS", [(0, 0), (1, 1)], ProgType.linear⟩,
              ⟨"pC", [(0, 0), (2, 1)], ProgType.linear⟩],
    sliders := [{ name := "S", index := 0, enabled := true, value := 0, multiplier := 1,
                  prog := 0 }],
    combos := [mkCombo "C" 1 0 [(0, 1)] false ComboSolve.min] }

/-- A 1-D floater at target `1/2` on slider 0. -/
def fEx : Combo := mkCombo "f" 0 0 [(0, 1/2)] true ComboSolve.None

/-- The same slider, target `-1/2`: the opposite orthant. -/
def fNeg : Combo := mkCombo "f2" 0 1 [(0, -1/2)] true ComboSolve.None

/-- The TriSpace holding `fEx`: the interval `[0,1]` is split at the user
point `1/2` into the two sub-simplices `[0,2]` and `[2,1]` (2 encodes the
appended user point). -/
def ts1 : TriSpace :=
  { floaters := [0], userPoints := [[1/2]], overrideSimplices := [[0, 1]],
    simplexMap := [([0, 1], [[0, 2], [2, 1]])] }

/-- A v1 document whose second shape element is a number instead of a
string: structurally parseable, schema-violating. -/
def docBad : JValue :=
  JValue.obj [("shapes", JValue.arr [JValue.str "A", JValue.num (JNum.int 5)]),
              ("progressions", JValue.arr []),
              ("sliders", JValue.arr [])]

/-- A well-formed v1 document carrying `encodingVersion: 7`. -/
def docV7 : JValue :=
  JValue.obj [("encodingVersion", JValue.num (JNum.int 7)),
              ("shapes", JValue.arr [JValue.str "A"]),
              ("progressions", JValue.arr []),
              ("sliders", JValue.arr [])]

/-- A four-pair spline progression (times 0,1,2,3 on shapes 0,1,2,3). -/
def prog4 : Progression := ⟨"p4", [(0, 0), (1, 1), (2, 2), (3, 3)], ProgType.spline⟩

/-- A three-pair spline progression. -/
def prog3 : Progression := ⟨"p3", [(0, 0), (1, 1), (2, 2)], ProgType.spline⟩

/-- An allMul combo over one slider with target 1. -/
def cMul : Combo := mkCombo "cm" 0 0 [(0, 1)] false ComboSolve.allMul

/-- A slider array holding one slider whose stored value is `1/2`. -/
def ssHalf : List Slider :=
  [{ name := "S", index := 0, enabled := true, value := 1/2, multiplier := 1, prog := 0 }]

/-- A slider array holding one slider whose stored value is `-1`. -/
def ssNeg : List Slider :=
  [{ name := "S", index := 0, enabled := true, value := -1, multiplier := 1, prog := 0 }]

/-- A min-combo over slider 0 (target 1) carrying a stale value `7/10` from
an earlier solve. -/
def cStale : Combo := { mkCombo "cs" 0 0 [(0, 1)] false ComboSolve.min with value := 7/10 }

/-- A traversal carrying stale `value`/`multiplier`, whose progress state
(slider 0 from 0 towards +1) will be sign-rejected on a negative input and
whose multiplier state (slider 0, target −1) will be accepted. -/
def tEx : Traversal :=
  { name := "t", index := 0, enabled := true, value := 9/10, multiplier := 5, prog := 0,
    progStartState := [(0, 0)], progDeltaState := [(0, 1)], multState := [(0, -1)],
    solveType := ComboSolve.min, exact := true }

/-! # Theorems -/

section ClaimTheorems

set_option allowUnsafeReducibility true

attribute [local semireducible] Rat.add Rat.sub Rat.mul Rat.inv

/-- C3: for two floaters over the same slider (index 0) whose targets have
opposite signs — hence opposite orthants, witnessed by their `inverted`
vectors — `buildSpaces` puts both into one TriSpace group: `stateEq`
compares only the slider pointers of the state lists and never the signs,
contradicting both the claim and the source's own comments ("separate them
by shared sliders and directions", "group them by shared span and
orthant"). -/
theorem buildSpaces_ignores_orthant :
    buildSpaces [fEx, fNeg] = [[0, 1]] ∧
    fEx.stateList.map (·.1) = fNeg.stateList.map (·.1) ∧
    fEx.inverted = [false] ∧ fNeg.inverted = [true] := by
  decide

/-- C2 (counterexample): the fresh container `sA` has all controllers at
`value = 0, multiplier = 1`, yet after `solve [1]` its combo holds value 1,
and a second `solve [-1]` started from that state yields `[0, -1, 1]` while
`solve [-1]` from the fresh state yields `[0, -1, 0]` — the previous solve's
value influenced the output, so no reset happens at the start of a solve. -/
theorem solve_no_reset_counterexample :
    (sA.combos.map Combo.value = [0] ∧ sA.sliders.map Slider.value = [0]) ∧
    ((sA.solve zeroSoft [1]).map fun r => r.1.combos.map Combo.value) = some [1] ∧
    (((sA.solve zeroSoft [1]).bind fun r => r.1.solve zeroSoft [-1]).map (·.2)) =
      some [0, -1, 1] ∧
    ((sA.solve zeroSoft [-1]).map (·.2)) = some [0, -1, 0] := by
  decide

/-- C2 (amended): the `value = 0, multiplier = 1` reset exists, but it is
performed by `clearValues` — which `Simplex::solve` never calls — not at
the start of each solve. -/
theorem clearValues_resets_controllers (s : Simplex) :
    (∀ c ∈ s.clearValues.sliders, c.value = 0 ∧ c.multiplier = 1) ∧
    (∀ c ∈ s.clearValues.combos, c.value = 0 ∧ c.multiplier = 1) ∧
    (∀ c ∈ s.clearValues.floaters, c.value = 0 ∧ c.multiplier = 1) ∧
    (∀ c ∈ s.clearValues.traversals, c.value = 0 ∧ c.multiplier = 1) := by
  refine ⟨?_, ?_, ?_, ?_⟩ <;>
    · intro c hc
      simp only [Simplex.clearValues, List.mem_map] at hc
      obtain ⟨x, -, rfl⟩ := hc
      exact ⟨rfl, rfl⟩

/-- C2 (witness for the amended claim): `clearValues` zeroes the stale combo. -/
theorem clearValues_resets_controllers_witness :
    (({ sA with combos := [cStale] } : Simplex).clearValues.combos.getD 0 default).value = 0 := by
  have h := (clearValues_resets_controllers { sA with combos := [cStale] }).2.1
  have hm : (({ sA with combos := [cStale] } : Simplex).clearValues.combos.getD 0 default) ∈
      ({ sA with combos := [cStale] } : Simplex).clearValues.combos := by decide
  exact (h _ hm).1

/-- C6 (counterexample): with one slider, `solve` on the empty input reads
past the end of the input vector (undefined behaviour, modelled `none`)
instead of treating the missing entry as 0 — `solve [0]` does succeed. -/
theorem solve_short_input_out_of_bounds :
    sA.solve zeroSoft [] = none ∧ (sA.solve zeroSoft [0]).isSome = true := by
  decide

/-- C4 (counterexample): a well-formed v1 document with `encodingVersion: 7`
parses successfully (`loaded = true`), because the version dispatch sends
every version other than 2 and 3 to the v1 element parsers. -/
theorem encoding_version_seven_parses :
    (Simplex.empty.parseJSON docV7).1 = true ∧
    (Simplex.empty.parseJSON docV7).2.loaded = true ∧
    (Simplex.empty.parseJSON docV7).2.shapes = [⟨"A", 0⟩] := by
  decide

/-- C1 (counterexample): `docBad` is structurally parseable but
schema-violating (its second shape is a number); parse returns failure, yet
no error is recorded (`hasParseError = false`, `parseError` empty) and the
container is NOT cleared — the first shape remains. -/
theorem parse_schema_violation_counterexample :
    (Simplex.empty.parseJSON docBad).1 = false ∧
    (Simplex.empty.parseJSON docBad).2.hasParseError = false ∧
    (Simplex.empty.parseJSON docBad).2.parseError = none ∧
    (Simplex.empty.parseJSON docBad).2.shapes = [⟨"A", 0⟩] := by
  decide

/-- C9 (counterexample): a four-pair spline progression queried in the
middle interval (all claim-side conditions hold: spline interpolation, more
than two pairs, `t = 3/2` inside the sampled range) returns FOUR weights,
not "two or three". -/
theorem spline_four_weights_counterexample :
    prog4.interp = ProgType.spline ∧ 2 < prog4.pairs.length ∧
    (prog4.pairs.map (·.2)).getD 0 0 ≤ 3/2 ∧
    3/2 ≤ (prog4.pairs.map (·.2)).getD (prog4.pairs.length - 1) 0 ∧
    (prog4.getOutput (3/2) 1).length = 4 := by
  decide

/-- C5 (counterexample): a min-combo carrying value `7/10` from an earlier
solve hits the sign gate (slider value −1 against target 1) and
`storeValue` returns with the value UNCHANGED at `7/10` — it is not set
to 0 as the claim states. -/
theorem combo_sign_mismatch_keeps_value :
    cStale.enabled = true ∧ cStale.isFloater = false ∧
    signMismatchAny (cStale.stateList.map fun st => sliderValue ssNeg st.1)
      (cStale.stateList.map (·.2)) = true ∧
    Combo.storeValue zeroSoft ssNeg cStale = cStale ∧
    cStale.value = 7/10 := by
  decide

/-! ## The `solveState` loop versus the claim's gate/clamp description -/

theorem solveStateLoop_none_of_mismatch :
    ∀ vals tars : List Val, signMismatchAny vals tars = true →
      solveStateLoop vals tars = none := by
  intro vals
  induction vals with
  | nil => intro tars h; simp [signMismatchAny] at h
  | cons v vs ih =>
    intro tars h
    cases tars with
    | nil => simp [signMismatchAny] at h
    | cons t ts =>
      simp only [signMismatchAny, List.zip_cons_cons, List.any_cons, Bool.or_eq_true] at h
      unfold solveStateLoop
      simp only [List.headD_cons, List.drop_succ_cons, List.drop_zero]
      rcases h with h | h
      · simp [signMismatch] at h
        simp [h]
      · have := ih ts (by simpa [signMismatchAny] using h)
        split
        · rfl
        · simp [this]

theorem solveStateLoop_of_no_mismatch :
    ∀ vals tars : List Val, vals.length ≤ tars.length →
      signMismatchAny vals tars = false →
      solveStateLoop vals tars = some (vals.map clampMag) := by
  intro vals
  induction vals with
  | nil => intro tars _ _; simp [solveStateLoop]
  | cons v vs ih =>
    intro tars hlen h
    cases tars with
    | nil => simp at hlen
    | cons t ts =>
      simp only [signMismatchAny, List.zip_cons_cons, List.any_cons, Bool.or_eq_false_iff] at h
      unfold solveStateLoop
      simp only [List.headD_cons, List.drop_succ_cons, List.drop_zero]
      have hm : ((!isPositive v) != (!isPositive t)) = false := by
        have := h.1; simpa [signMismatch] using this
      rw [if_neg (by simp [hm])]
      rw [ih ts (by simpa using hlen) (by simpa [signMismatchAny] using h.2)]
      cases hp : isPositive v <;> simp [clampMag, hp]

/-- Shared helper: an enabled, non-floater combo whose state hits the sign
gate is returned unchanged (`solveState` returns `false` without writing). -/
theorem combo_mismatch_unchanged (softF : Val → Val → Val) (ss : List Slider) (c : Combo)
    (he : c.enabled = true) (hf : c.isFloater = false)
    (hm : signMismatchAny (c.stateList.map fun st => sliderValue ss st.1)
        (c.stateList.map (·.2)) = true) :
    c.storeValue softF ss = c := by
  unfold Combo.storeValue solveState
  rw [solveStateLoop_none_of_mismatch _ _ hm]
  simp [he, hf]

/-- Shared helper: with no sign mismatch, the combo's value becomes the
solve-type formula applied to the clamped magnitudes. -/
theorem combo_no_mismatch_value (softF : Val → Val → Val) (ss : List Slider) (c : Combo)
    (he : c.enabled = true) (hf : c.isFloater = false)
    (hm : signMismatchAny (c.stateList.map fun st => sliderValue ss st.1)
        (c.stateList.map (·.2)) = false) :
    c.storeValue softF ss =
      { c with value := (solveValue softF c.solveType c.exact
          ((c.stateList.map fun st => sliderValue ss st.1).map clampMag)) } := by
  unfold Combo.storeValue solveState
  rw [solveStateLoop_of_no_mismatch _ _ (by simp) hm]
  simp [he, hf]

/-- C5 (amended): for an enabled non-floater combo, `storeValue` leaves the
combo UNCHANGED (keeping its previous value — it is not set to 0) when any
participating slider's sign disagrees with its target's (zero counted
positive); otherwise it stores the solve-type formula (`solveValue` — min
for min/None with `exact`, `doSoftMin(max,min)` otherwise, product for
allMul, max·min for extMul, `2·max·min/(max+min)` or 0 for mulAvgExt,
`n·Π/Σ` or 0 for mulAvgAll) over the sign-adjusted magnitudes clamped
to 1 (`clampMag`). -/
theorem combo_storeValue_characterization (softF : Val → Val → Val) (ss : List Slider)
    (c : Combo) (he : c.enabled = true) (hf : c.isFloater = false) :
    (signMismatchAny (c.stateList.map fun st => sliderValue ss st.1)
        (c.stateList.map (·.2)) = true →
      c.storeValue softF ss = c) ∧
    (signMismatchAny (c.stateList.map fun st => sliderValue ss st.1)
        (c.stateList.map (·.2)) = false →
      c.storeValue softF ss =
        { c with value := (solveValue softF c.solveType c.exact
            ((c.stateList.map fun st => sliderValue ss st.1).map clampMag)) }) :=
  ⟨fun hm => combo_mismatch_unchanged softF ss c he hf hm,
   fun hm => combo_no_mismatch_value softF ss c he hf hm⟩

/-- C5 (witness): an allMul combo over one slider with stored value `1/2`
and target 1 computes value `1/2`. -/
theorem combo_storeValue_characterization_witness :
    Combo.storeValue zeroSoft ssHalf cMul = { cMul with value := 1/2 } := by
  have h := (combo_storeValue_characterization zeroSoft ssHalf cMul
    (by decide) (by decide)).2 (by decide)
  rw [h]
  decide

/-- C10: an enabled traversal's `storeValue` overwrites `value` and
`multiplier` regardless of their previous contents (first conjunct: the
results do not depend on the incoming `value`/`multiplier`); when the sign
gate inside the state solve rejects the progress state, the stored value is
the local initialisation 0 (second conjunct) — unlike a combo, whose
rejected `storeValue` returns with its previous value intact (third
conjunct). -/
theorem traversal_storeValue_overwrites (softF : Val → Val → Val) (ss : List Slider) :
    (∀ (t : Traversal) (a b : Val), t.enabled = true →
      ((({ t with value := a, multiplier := b } : Traversal).storeValue softF ss).value =
          (t.storeValue softF ss).value ∧
        (({ t with value := a, multiplier := b } : Traversal).storeValue softF ss).multiplier =
          (t.storeValue softF ss).multiplier)) ∧
    (∀ t : Traversal, t.enabled = true →
      signMismatchAny (t.progStartState.map fun st => sliderValue ss st.1 - st.2)
          (t.progDeltaState.map (·.2)) = true →
      (t.storeValue softF ss).value = 0) ∧
    (∀ c : Combo, c.enabled = true → c.isFloater = false →
      signMismatchAny (c.stateList.map fun st => sliderValue ss st.1)
          (c.stateList.map (·.2)) = true →
      c.storeValue softF ss = c) := by
  refine ⟨?_, ?_, fun c he hf hm => combo_mismatch_unchanged softF ss c he hf hm⟩
  · intro t a b he
    unfold Traversal.storeValue
    simp [he]
  · intro t he hm
    unfold Traversal.storeValue
    simp only [he, Bool.not_true, Bool.false_eq_true, if_false]
    simp [solveState, solveStateLoop_none_of_mismatch _ _ hm]

/-- C10 (witness): the traversal `tEx` carries stale `value = 9/10`,
`multiplier = 5`; on a negative input its progress state is sign-rejected,
so the stored value is 0 (not the stale value) and the multiplier is
freshly computed as 1. -/
theorem traversal_storeValue_overwrites_witness :
    (Traversal.storeValue zeroSoft ssNeg tEx).value = 0 ∧
    (Traversal.storeValue zeroSoft ssNeg tEx).multiplier = 1 ∧
    tEx.value = 9/10 ∧ tEx.multiplier = 5 := by
  have h := (traversal_storeValue_overwrites zeroSoft ssNeg).2.1 tEx (by decide) (by decide)
  exact ⟨h, by decide, by decide, by decide⟩

/-! ## Spline partition of unity -/

theorem getD_map_pair (l : List ProgPair) (i : Nat) :
    (l.map (·.2)).getD i 0 = (l.getD i (0, 0)).2 := by
  induction l generalizing i with
  | nil => rfl
  | cons x xs ih => cases i with
    | zero => rfl
    | succ j => simpa using ih j

/-- All three in-range returns of `getInterval` carry the same `outside`
flag. -/
theorem getInterval_snd (t : Val) (times : List Val) (h : 1 < times.length) :
    (getInterval t times).2 =
      (decide (t < times.getD 0 0) || decide (t > times.getD (times.length - 1) 0)) := by
  unfold getInterval
  rw [if_neg (by omega)]
  split
  · rfl
  · split <;> rfl

/-- C9 (amended): for a spline progression with more than two pairs and a
parameter inside the sampled range, `getOutput` returns three or four
weighted shapes (three at the two boundary intervals, four at interior
intervals — not "two or three"), and the weights sum to `mul` exactly
(partition of unity). -/
theorem spline_partition_of_unity (p : Progression) (t mul : Val)
    (hi : p.interp = ProgType.spline) (hn : 2 < p.pairs.length)
    (hlo : (p.pairs.map (·.2)).getD 0 0 ≤ t)
    (hhi : t ≤ (p.pairs.map (·.2)).getD (p.pairs.length - 1) 0) :
    ((p.getOutput t mul).map (·.2)).sum = mul ∧
    3 ≤ (p.getOutput t mul).length ∧ (p.getOutput t mul).length ≤ 4 := by
  have hout : p.getOutput t mul = getRawSplineOutput p.pairs t mul := by
    simp [Progression.getOutput, hi, Progression.getSplineOutput]
  have hfst : ¬ t < (p.pairs.getD 0 (0, 0)).2 := by
    rw [← getD_map_pair]; exact not_lt.mpr hlo
  have hlen1 : 1 < (p.pairs.map (·.2)).length := by simp; omega
  have hsnd : (getInterval t (p.pairs.map (·.2))).2 = false := by
    rw [getInterval_snd t _ hlen1]
    simp only [Bool.or_eq_false_iff, decide_eq_false_iff_not, List.length_map, not_lt]
    exact ⟨hlo, hhi⟩
  rw [hout]
  unfold getRawSplineOutput
  rw [if_neg]
  case hnc =>
    simp only [Bool.or_eq_true, Bool.and_eq_true, decide_eq_true_eq]
    rintro (h | ⟨h, -⟩)
    · omega
    · exact hfst h
  simp only [hsnd, Bool.false_eq_true, if_false]
  refine ⟨?_, ?_, ?_⟩
  · (repeat' split) <;>
      · simp only [List.map_cons, List.map_nil, List.sum_cons, List.sum_nil]
        ring
  · (repeat' split) <;> simp
  · (repeat' split) <;> simp

/-- C9 (witness): the three-pair spline progression `prog3` at `t = 1/2`
returns three weights summing to 1. -/
theorem spline_partition_of_unity_witness :
    ((prog3.getOutput (1/2) 1).map (·.2)).sum = 1 ∧
    3 ≤ (prog3.getOutput (1/2) 1).length ∧ (prog3.getOutput (1/2) 1).length ≤ 4 :=
  spline_partition_of_unity prog3 (1/2) 1 (by decide) (by decide) (by decide) (by decide)

/-! ## TriSpace resolution -/

theorem gatherPoint_none_of_zero (cl : List Val) (inv : List Bool) :
    ∀ stl : List ComboPair, (∃ p ∈ stl, cl.getD p.1 0 = 0) →
      gatherPoint cl inv stl = none := by
  intro stl
  induction stl with
  | nil => rintro ⟨p, hp, -⟩; simp at hp
  | cons q rest ih =>
    rintro ⟨p, hp, hz⟩
    unfold gatherPoint
    dsimp only
    by_cases hq : isZero (cl.getD q.1 0) = true
    · rw [if_pos hq]
    · rcases List.mem_cons.mp hp with rfl | hmem
      · exact absurd (by rw [hz]; decide) hq
      · rw [if_neg hq, ih ⟨p, hmem, hz⟩]
        rfl

theorem acceptLoop_eq_find (tf : List Nat) (up : List (List Val)) (ms : List Int)
    (vec : List Val) :
    ∀ (sms : List (List Int)) (fl : List Combo),
      acceptLoop tf up ms vec sms fl =
        match sms.find? (acceptsSub up ms vec) with
        | none => fl
        | some sm =>
          assignFloaters tf (barycentric (userSimplexToCorners up sm ms).1 vec)
            (userSimplexToCorners up sm ms).2 fl := by
  intro sms
  induction sms with
  | nil => intro fl; rfl
  | cons sm rest ih =>
    intro fl
    unfold acceptLoop
    by_cases h : acceptsSub up ms vec sm = true
    · rw [List.find?_cons_of_pos _ h]
      have h' : ((barycentric (userSimplexToCorners up sm ms).1 vec).all isPositive) = true := h
      simp only [h', if_true]
    · rw [List.find?_cons_of_neg _ (by simpa using h)]
      have h' : ((barycentric (userSimplexToCorners up sm ms).1 vec).all isPositive) = false := by
        simpa [acceptsSub] using h
      simp only [h', Bool.false_eq_true, if_false]
      exact ih fl

/-- C8: `TriSpace::storeValue` (i) returns without assigning any floater
value when some participating clamped value is exactly zero, and (ii) when
the gather succeeds, the orthant matches and the containing orthoscheme is
a key of `simplexMap`, it assigns, for the FIRST sub-simplex (in stored
order) whose barycentric coordinates of the input are all non-negative
(`isPositive`), each floater corner's value to its barycentric coordinate
— ignoring non-floater corners and any later sub-simplex; if none is
accepted, the floater vector is unchanged. -/
theorem trispace_storeValue_first_accepted (cl : List Val) (inv : List Bool)
    (fl : List Combo) (ts : TriSpace) :
    ((∃ p ∈ (fl.getD (ts.floaters.headD 0) default).stateList, cl.getD p.1 0 = 0) →
      ts.storeValue cl inv fl = fl) ∧
    (∀ si, gatherPoint cl inv (fl.getD (ts.floaters.headD 0) default).stateList = some si →
      (fl.getD (ts.floaters.headD 0) default).inverted = si.1 →
      ∀ sms, ts.simplexMap.lookup (pointToSimp si.2) = some sms →
      ts.storeValue cl inv fl =
        match sms.find? (acceptsSub ts.userPoints (pointToSimp si.2) si.2) with
        | none => fl
        | some sm =>
          assignFloaters ts.floaters
            (barycentric (userSimplexToCorners ts.userPoints sm (pointToSimp si.2)).1 si.2)
            (userSimplexToCorners ts.userPoints sm (pointToSimp si.2)).2 fl) := by
  constructor
  · intro hex
    unfold TriSpace.storeValue
    dsimp only
    rw [gatherPoint_none_of_zero _ _ _ hex]
  · intro si hg hinv sms hlk
    unfold TriSpace.storeValue
    dsimp only
    rw [hg]
    dsimp only
    rw [if_neg (fun hne => hne hinv), hlk]
    dsimp only
    exact acceptLoop_eq_find _ _ _ _ sms fl

/-- C8 (witness): the 1-D TriSpace `ts1` (floater at `1/2`, interval split
into `[0,2]` and `[2,1]`) evaluated at clamped input `1/4` accepts the
first sub-simplex `[0,2]` and assigns the floater the barycentric weight
`1/2`. -/
theorem trispace_storeValue_first_accepted_witness :
    ts1.storeValue [1/4] [false] [fEx] = [{ fEx with value := 1/2 }] := by
  have h := (trispace_storeValue_first_accepted [1/4] [false] [fEx] ts1).2
    ([false], [1/4]) (by decide) (by decide) [[0, 2], [2, 1]] (by decide)
  rw [h]
  decide

/-! ## Accumulation phase: output length and `maxAct` -/

theorem if_gt_eq_max (a m : Val) : (if a > m then a else m) = max m a := by
  rcases le_or_lt a m with h | h
  · rw [if_neg (not_lt.mpr h), max_eq_left h]
  · rw [if_pos h, max_eq_right h.le]

theorem foldl_set_length (l : List ProgPair) :
    ∀ acc : List Val,
      (l.foldl (fun a sv => a.set sv.1 (a.getD sv.1 0 + sv.2)) acc).length = acc.length := by
  induction l with
  | nil => intro acc; rfl
  | cons x xs ih => intro acc; rw [List.foldl_cons, ih, List.length_set]

theorem accumOne_fst_length (progs : List Progression) (v m : Val) (pidx : Nat)
    (om : List Val × Val) : (accumOne progs v m pidx om).1.length = om.1.length := by
  unfold accumOne
  exact foldl_set_length _ _

theorem accumOne_snd (progs : List Progression) (v m : Val) (pidx : Nat)
    (om : List Val × Val) : (accumOne progs v m pidx om).2 = max om.2 |v * m| := by
  unfold accumOne
  exact if_gt_eq_max _ _

theorem ctrl_fold_fst_length {α : Type} (progs : List Progression)
    (v m : α → Val) (pidx : α → Nat) (l : List α) :
    ∀ om : List Val × Val,
      (l.foldl (fun om x => accumOne progs (v x) (m x) (pidx x) om) om).1.length =
        om.1.length := by
  induction l with
  | nil => intro om; rfl
  | cons x xs ih =>
    intro om
    rw [List.foldl_cons, ih, accumOne_fst_length]

theorem ctrl_fold_snd {α : Type} (progs : List Progression)
    (v m : α → Val) (pidx : α → Nat) (l : List α) :
    ∀ om : List Val × Val,
      (l.foldl (fun om x => accumOne progs (v x) (m x) (pidx x) om) om).2 =
        l.foldl (fun mm x => max mm |v x * m x|) om.2 := by
  induction l with
  | nil => intro om; rfl
  | cons x xs ih =>
    intro om
    rw [List.foldl_cons, List.foldl_cons, ih, accumOne_snd]

theorem le_foldl_max (l : List Val) : ∀ b : Val, b ≤ l.foldl max b := by
  induction l with
  | nil => intro b; exact le_refl b
  | cons x xs ih => intro b; exact le_trans (le_max_left b x) (ih (max b x))

theorem mem_le_foldl_max (l : List Val) : ∀ (b a : Val), a ∈ l → a ≤ l.foldl max b := by
  induction l with
  | nil => intro b a ha; simp at ha
  | cons x xs ih =>
    intro b a ha
    rcases List.mem_cons.mp ha with rfl | hmem
    · exact le_trans (le_max_right b a) (le_foldl_max xs (max b a))
    · exact ih (max b x) a hmem

theorem foldl_max_mem_or (l : List Val) : ∀ b : Val, l.foldl max b = b ∨ l.foldl max b ∈ l := by
  induction l with
  | nil => intro b; exact Or.inl rfl
  | cons x xs ih =>
    intro b
    rcases ih (max b x) with h | h
    · rcases le_total b x with hbx | hxb
      · exact Or.inr (by rw [List.foldl_cons, h, max_eq_right hbx]; exact List.mem_cons_self _ _)
      · exact Or.inl (by rw [List.foldl_cons, h, max_eq_left hxb])
    · exact Or.inr (List.mem_cons_of_mem x h)

theorem foldl_max_attained (l : List Val) (hnn : ∀ a ∈ l, 0 ≤ a) (hne : l ≠ []) :
    l.foldl max 0 ∈ l := by
  rcases foldl_max_mem_or l 0 with h0 | hmem
  · cases l with
    | nil => exact absurd rfl hne
    | cons a rest =>
      have hmem0 : a ∈ a :: rest := List.mem_cons_self _ _
      have hle : a ≤ 0 := by
        have := mem_le_foldl_max (a :: rest) 0 a hmem0
        rwa [h0] at this
      have hge : 0 ≤ a := hnn a hmem0
      rw [h0]
      exact (le_antisymm hle hge) ▸ hmem0
  · exact hmem

theorem headD_set_zero (l : List Val) (x d : Val) (h : l ≠ []) : (l.set 0 x).headD d = x := by
  cases l with
  | nil => exact absurd rfl h
  | cons a as => rfl

theorem controllerActs_nonneg (s : Simplex) : ∀ a ∈ controllerActs s, 0 ≤ a := by
  intro a ha
  unfold controllerActs at ha
  simp only [List.mem_append, List.mem_map] at ha
  rcases ha with ((⟨c, -, rfl⟩ | ⟨c, -, rfl⟩) | ⟨c, -, rfl⟩) | ⟨c, -, rfl⟩ <;> exact abs_nonneg _

/-- C7: whenever `solve` returns (its slider reads all in bounds) on a
container with at least one shape, the output vector has exactly one entry
per shape, and its first entry equals `1 − maxAct` where `maxAct` is the
running maximum (starting at 0) of `|value · multiplier|` over all stored
controllers of that solve; the last two conjuncts identify that fold with
the maximum: it bounds every controller's activation and is attained by
one of them whenever any controller exists. -/
theorem solve_output_length_and_rest_weight (softF : Val → Val → Val) (s : Simplex)
    (vec : List Val) (pr : Simplex × List Val) (h : s.solve softF vec = some pr)
    (hs : s.shapes ≠ []) :
    pr.2.length = s.shapes.length ∧
    pr.2.headD 0 = 1 - maxActOf pr.1 ∧
    (∀ a ∈ controllerActs pr.1, a ≤ maxActOf pr.1) ∧
    (controllerActs pr.1 ≠ [] → maxActOf pr.1 ∈ controllerActs pr.1) := by
  unfold Simplex.solve at h
  cases hm : s.sliders.mapM (Slider.storeValue vec) with
  | none => rw [hm] at h; simp at h
  | some sl =>
    rw [hm] at h
    simp only [Option.bind_eq_bind, Option.some_bind, Option.some_inj] at h
    subst h
    dsimp only
    constructor
    · -- output length
      split
      · rw [ctrl_fold_fst_length, ctrl_fold_fst_length, ctrl_fold_fst_length,
            ctrl_fold_fst_length]
        exact List.length_replicate _ _
      · rw [List.length_set, ctrl_fold_fst_length, ctrl_fold_fst_length,
            ctrl_fold_fst_length, ctrl_fold_fst_length]
        exact List.length_replicate _ _
    refine ⟨?_, mem_le_foldl_max _ 0, ?_⟩
    · -- head entry = 1 - maxAct
      have hlen4 : ((s.traversals.map (Traversal.storeValue softF sl)).foldl
          (fun om t => accumOne s.progs t.value t.multiplier t.prog om)
          (((s.spaces.foldl (fun fl sp =>
                sp.storeValue (rectify vec).2.1 (rectify vec).2.2 fl) s.floaters).foldl
              (fun om c => accumOne s.progs c.value c.multiplier c.prog om)
              ((s.combos.map (Combo.storeValue softF sl)).foldl
                (fun om c => accumOne s.progs c.value c.multiplier c.prog om)
                (sl.foldl (fun om sl0 => accumOne s.progs sl0.value sl0.multiplier sl0.prog om)
                  (List.replicate s.shapes.length 0, 0)))))).1.length = s.shapes.length := by
        rw [ctrl_fold_fst_length, ctrl_fold_fst_length, ctrl_fold_fst_length,
            ctrl_fold_fst_length]
        exact List.length_replicate _ _
      have hne : ((s.traversals.map (Traversal.storeValue softF sl)).foldl
          (fun om t => accumOne s.progs t.value t.multiplier t.prog om)
          (((s.spaces.foldl (fun fl sp =>
                sp.storeValue (rectify vec).2.1 (rectify vec).2.2 fl) s.floaters).foldl
              (fun om c => accumOne s.progs c.value c.multiplier c.prog om)
              ((s.combos.map (Combo.storeValue softF sl)).foldl
                (fun om c => accumOne s.progs c.value c.multiplier c.prog om)
                (sl.foldl (fun om sl0 => accumOne s.progs sl0.value sl0.multiplier sl0.prog om)
                  (List.replicate s.shapes.length 0, 0)))))).1 ≠ [] := by
        intro he
        rw [he] at hlen4
        exact hs (List.eq_nil_of_length_eq_zero hlen4.symm)
      rw [if_neg (by simpa [List.isEmpty_iff] using hne)]
      rw [headD_set_zero _ _ _ hne]
      congr 1
      rw [ctrl_fold_snd, ctrl_fold_snd, ctrl_fold_snd, ctrl_fold_snd]
      unfold maxActOf controllerActs
      dsimp only
      rw [List.foldl_append, List.foldl_append, List.foldl_append]
      simp only [List.foldl_map]
    · -- the fold is attained when a controller exists
      intro hne
      unfold maxActOf
      exact foldl_max_attained _ (controllerActs_nonneg _) hne

/-- C7 (witness): on the fixture `sA` with input `[1]`, the output has one
entry per shape and its first entry is `1 − maxAct`. -/
theorem solve_output_length_and_rest_weight_witness :
    ∃ pr, sA.solve zeroSoft [1] = some pr ∧
      pr.2.length = sA.shapes.length ∧ pr.2.headD 0 = 1 - maxActOf pr.1 := by
  have hsome : sA.solve zeroSoft [1] = some ((sA.solve zeroSoft [1]).get (by decide)) :=
    (Option.some_get _).symm
  have h := solve_output_length_and_rest_weight zeroSoft sA [1] _ hsome (by decide)
  exact ⟨_, hsome, h.1, h.2.1⟩

/-! ## Parser failure behaviour -/

theorem presErr_refl (s : Simplex) : presErr s s := ⟨rfl, rfl, rfl⟩

theorem presErr_trans {a b c : Simplex} (h1 : presErr a b) (h2 : presErr b c) : presErr a c :=
  ⟨h2.1.trans h1.1, h2.2.1.trans h1.2.1, h2.2.2.trans h1.2.2⟩

theorem presFlags_refl (s : Simplex) : presFlags s s := ⟨presErr_refl s, rfl⟩

theorem presFlags_trans {a b c : Simplex} (h1 : presFlags a b) (h2 : presFlags b c) :
    presFlags a c :=
  ⟨presErr_trans h1.1 h2.1, h2.2.trans h1.2⟩

theorem shapeV1_pres (v : JValue) (i : Nat) (s s' : Simplex)
    (h : Shape.parseJSONv1 v i s = some s') : presFlags s s' := by
  obtain ⟨a, -, rfl⟩ := Option.map_eq_some'.mp h
  exact ⟨⟨rfl, rfl, rfl⟩, rfl⟩

theorem shapeV2_pres (v : JValue) (i : Nat) (s s' : Simplex)
    (h : Shape.parseJSONv2 v i s = some s') : presFlags s s' := by
  obtain ⟨a, -, rfl⟩ := Option.map_eq_some'.mp h
  exact ⟨⟨rfl, rfl, rfl⟩, rfl⟩

theorem shapeV3_pres (v : JValue) (i : Nat) (s s' : Simplex)
    (h : Shape.parseJSONv3 v i s = some s') : presFlags s s' :=
  shapeV2_pres v i s s' h

theorem progV1_pres (v : JValue) (i : Nat) (s s' : Simplex)
    (h : Progression.parseJSONv1 v i s = some s') : presFlags s s' := by
  obtain ⟨a, -, rfl⟩ := Option.map_eq_some'.mp h
  exact ⟨⟨rfl, rfl, rfl⟩, rfl⟩

theorem progV2_pres (v : JValue) (i : Nat) (s s' : Simplex)
    (h : Progression.parseJSONv2 v i s = some s') : presFlags s s' := by
  obtain ⟨a, -, rfl⟩ := Option.map_eq_some'.mp h
  exact ⟨⟨rfl, rfl, rfl⟩, rfl⟩

theorem progV3_pres (v : JValue) (i : Nat) (s s' : Simplex)
    (h : Progression.parseJSONv3 v i s = some s') : presFlags s s' :=
  progV2_pres v i s s' h

theorem sliderV1_pres (v : JValue) (i : Nat) (s s' : Simplex)
    (h : Slider.parseJSONv1 v i s = some s') : presFlags s s' := by
  obtain ⟨a, -, rfl⟩ := Option.map_eq_some'.mp h
  exact ⟨⟨rfl, rfl, rfl⟩, rfl⟩

theorem sliderV2_pres (v : JValue) (i : Nat) (s s' : Simplex)
    (h : Slider.parseJSONv2 v i s = some s') : presFlags s s' := by
  obtain ⟨a, -, rfl⟩ := Option.map_eq_some'.mp h
  exact ⟨⟨rfl, rfl, rfl⟩, rfl⟩

theorem sliderV3_pres (v : JValue) (i : Nat) (s s' : Simplex)
    (h : Slider.parseJSONv3 v i s = some s') : presFlags s s' :=
  sliderV2_pres v i s s' h

theorem pushCombo_pres (i : Nat) (st : ComboSolve) (e : Bool)
    (pl : String × List ComboPair × Bool × Nat) (s : Simplex) :
    presFlags s (pushCombo i st e pl s) := by
  unfold pushCombo
  split <;> exact ⟨⟨rfl, rfl, rfl⟩, rfl⟩

theorem comboV1_pres (v : JValue) (i : Nat) (s s' : Simplex)
    (h : Combo.parseJSONv1 v i s = some s') : presFlags s s' := by
  obtain ⟨a, -, rfl⟩ := Option.map_eq_some'.mp h
  exact pushCombo_pres _ _ _ _ _

theorem comboV2_pres (v : JValue) (i : Nat) (s s' : Simplex)
    (h : Combo.parseJSONv2 v i s = some s') : presFlags s s' := by
  obtain ⟨a, -, rfl⟩ := Option.map_eq_some'.mp h
  exact pushCombo_pres _ _ _ _ _

theorem comboV3_pres (v : JValue) (i : Nat) (s s' : Simplex)
    (h : Combo.parseJSONv3 v i s = some s') : presFlags s s' :=
  comboV2_pres v i s s' h

theorem travV2_pres (v : JValue) (i : Nat) (s s' : Simplex)
    (h : Traversal.parseJSONv2 v i s = some s') : presFlags s s' := by
  obtain ⟨a, -, rfl⟩ := Option.map_eq_some'.mp h
  exact ⟨⟨rfl, rfl, rfl⟩, rfl⟩

theorem travV1_pres (v : JValue) (i : Nat) (s s' : Simplex)
    (h : Traversal.parseJSONv1 v i s = some s') : presFlags s s' :=
  travV2_pres v i s s' h

theorem travV3_pres (v : JValue) (i : Nat) (s s' : Simplex)
    (h : Traversal.parseJSONv3 v i s = some s') : presFlags s s' := by
  obtain ⟨a, -, rfl⟩ := Option.map_eq_some'.mp h
  exact ⟨⟨rfl, rfl, rfl⟩, rfl⟩

/-- A `version`-dispatch of three flag-preserving element parsers is
flag-preserving. -/
theorem dispatch_pres (f1 f2 f3 : JValue → Nat → Simplex → Option Simplex) (ver : Nat)
    (h1 : ∀ v i s s', f1 v i s = some s' → presFlags s s')
    (h2 : ∀ v i s s', f2 v i s = some s' → presFlags s s')
    (h3 : ∀ v i s s', f3 v i s = some s' → presFlags s s') :
    ∀ v i s s', (if ver = 3 then f3 else if ver = 2 then f2 else f1) v i s = some s' →
      presFlags s s' := by
  intro v i s s' h
  by_cases e3 : ver = 3
  · rw [if_pos e3] at h; exact h3 v i s s' h
  · rw [if_neg e3] at h
    by_cases e2 : ver = 2
    · rw [if_pos e2] at h; exact h2 v i s s' h
    · rw [if_neg e2] at h; exact h1 v i s s' h

theorem parseElems_pres (p : JValue → Nat → Simplex → Option Simplex)
    (hp : ∀ v i s s', p v i s = some s' → presFlags s s') :
    ∀ (l : List JValue) (i : Nat) (s : Simplex), presFlags s (parseElems p l i s).2 := by
  intro l
  induction l with
  | nil => intro i s; exact presFlags_refl s
  | cons x rest ih =>
    intro i s
    unfold parseElems
    rcases hx : p x i s with _ | s1
    · simp only [hx]
      exact presFlags_refl s
    · simp only [hx]
      exact presFlags_trans (hp _ _ _ _ hx) (ih (i + 1) s1)

theorem shapeParserFor_pres (ver : Nat) :
    ∀ v i s s', shapeParserFor ver v i s = some s' → presFlags s s' := by
  unfold shapeParserFor
  exact dispatch_pres _ _ _ ver shapeV1_pres shapeV2_pres shapeV3_pres

theorem progParserFor_pres (ver : Nat) :
    ∀ v i s s', progParserFor ver v i s = some s' → presFlags s s' := by
  unfold progParserFor
  exact dispatch_pres _ _ _ ver progV1_pres progV2_pres progV3_pres

theorem sliderParserFor_pres (ver : Nat) :
    ∀ v i s s', sliderParserFor ver v i s = some s' → presFlags s s' := by
  unfold sliderParserFor
  exact dispatch_pres _ _ _ ver sliderV1_pres sliderV2_pres sliderV3_pres

theorem comboParserFor_pres (ver : Nat) :
    ∀ v i s s', comboParserFor ver v i s = some s' → presFlags s s' := by
  unfold comboParserFor
  exact dispatch_pres _ _ _ ver comboV1_pres comboV2_pres comboV3_pres

theorem travParserFor_pres (ver : Nat) :
    ∀ v i s s', travParserFor ver v i s = some s' → presFlags s s' := by
  unfold travParserFor
  exact dispatch_pres _ _ _ ver travV1_pres travV2_pres travV3_pres

theorem parseCombosSection_pres (d : JValue) (ver : Nat) (s : Simplex) :
    presFlags s (parseCombosSection d ver s).2 := by
  unfold parseCombosSection
  rcases d.findMember "combos" with _ | jc
  · exact presFlags_refl s
  · dsimp only
    split
    · exact presFlags_refl s
    · exact parseElems_pres _ (comboParserFor_pres ver) _ 0 s

theorem parseTravsSection_pres (d : JValue) (ver : Nat) (s : Simplex) :
    presFlags s (parseTravsSection d ver s).2 := by
  unfold parseTravsSection
  rcases d.findMember "traversals" with _ | jt
  · exact presFlags_refl s
  · dsimp only
    split
    · exact presFlags_refl s
    · exact parseElems_pres _ (travParserFor_pres ver) _ 0 s

theorem parseSeq_pres {s0 : Simplex} (r : Bool × Simplex) (k : Simplex → Bool × Simplex)
    (hr : presFlags s0 r.2)
    (hk : ∀ t, presErr t (k t).2 ∧ ((k t).1 = false → (k t).2.loaded = t.loaded)) :
    presErr s0 (parseSeq r k).2 ∧
    ((parseSeq r k).1 = false → (parseSeq r k).2.loaded = s0.loaded) := by
  unfold parseSeq
  split
  · obtain ⟨hke, hkl⟩ := hk r.2
    exact ⟨presErr_trans hr.1 hke, fun hf => (hkl hf).trans hr.2⟩
  · exact ⟨hr.1, fun _ => hr.2⟩

theorem parseJSONversion_pres (s : Simplex) (d : JValue) (ver : Nat) :
    presErr s (s.parseJSONversion d ver).2 ∧
    ((s.parseJSONversion d ver).1 = false →
      (s.parseJSONversion d ver).2.loaded = s.loaded) := by
  unfold Simplex.parseJSONversion
  split
  case _ jshapes jprogs jsliders =>
    split
    · exact ⟨presErr_refl s, fun _ => rfl⟩
    · refine parseSeq_pres _ _ (parseElems_pres _ (shapeParserFor_pres ver) _ 0 s) ?_
      intro s1
      refine parseSeq_pres _ _ (parseElems_pres _ (progParserFor_pres ver) _ 0 s1) ?_
      intro s2
      refine parseSeq_pres _ _ (parseElems_pres _ (sliderParserFor_pres ver) _ 0 s2) ?_
      intro s3
      refine parseSeq_pres _ _ (parseCombosSection_pres d ver s3) ?_
      intro s4
      refine parseSeq_pres _ _ (parseTravsSection_pres d ver s4) ?_
      intro s5
      exact ⟨⟨rfl, rfl, rfl⟩, fun hf => nomatch hf⟩
  case _ =>
    exact ⟨presErr_refl s, fun _ => rfl⟩

theorem parseJSON_pres (s : Simplex) (d : JValue) :
    (s.parseJSON d).2.hasParseError = false ∧
    (s.parseJSON d).2.parseError = s.parseError ∧
    (s.parseJSON d).2.parseErrorOffset = s.parseErrorOffset ∧
    ((s.parseJSON d).1 = false → (s.parseJSON d).2.loaded = s.loaded) := by
  unfold Simplex.parseJSON
  dsimp only
  split
  · obtain ⟨⟨he, hp, ho⟩, hl⟩ :=
      parseJSONversion_pres { s with built := false, hasParseError := false } d 1
    exact ⟨he, hp, ho, hl⟩
  · split
    · obtain ⟨⟨he, hp, ho⟩, hl⟩ :=
        parseJSONversion_pres { s with built := false, hasParseError := false } d _
      exact ⟨he, hp, ho, hl⟩
    · exact ⟨rfl, rfl, rfl, fun _ => rfl⟩
  · exact ⟨rfl, rfl, rfl, fun _ => rfl⟩

/-- C1 (amended): on a structurally parseable document that fails the
schema, `parseJSON` returns `false` but the container does NOT record an
error (`hasParseError` is reset to `false`; `parseError` and its offset are
untouched — they are only written for JSON-syntax failures), the container
is NOT cleared (elements parsed before the failing one remain, see the
counterexample), and `loaded` merely keeps its prior value. -/
theorem parse_schema_violation_no_error_record (s : Simplex) (d : JValue)
    (h : (s.parseJSON d).1 = false) :
    (s.parseJSON d).2.hasParseError = false ∧
    (s.parseJSON d).2.parseError = s.parseError ∧
    (s.parseJSON d).2.parseErrorOffset = s.parseErrorOffset ∧
    (s.parseJSON d).2.loaded = s.loaded :=
  ⟨(parseJSON_pres s d).1, (parseJSON_pres s d).2.1, (parseJSON_pres s d).2.2.1,
   (parseJSON_pres s d).2.2.2 h⟩

/-- C1 (witness): the schema-violating `docBad` on a fresh container. -/
theorem parse_schema_violation_no_error_record_witness :
    (Simplex.empty.parseJSON docBad).2.hasParseError = false ∧
    (Simplex.empty.parseJSON docBad).2.parseError = none ∧
    (Simplex.empty.parseJSON docBad).2.loaded = false := by
  have h := parse_schema_violation_no_error_record Simplex.empty docBad (by decide)
  exact ⟨h.1, h.2.1, h.2.2.2⟩

/-- Every `encodingVersion` other than 2 and 3 selects the same (v1)
element parsers. -/
theorem parseJSONversion_unknown_version_eq_v1 (s : Simplex) (d : JValue) (v : Nat)
    (h2 : v ≠ 2) (h3 : v ≠ 3) :
    s.parseJSONversion d v = s.parseJSONversion d 1 := by
  have es : shapeParserFor v = shapeParserFor 1 := by
    unfold shapeParserFor
    rw [if_neg h3, if_neg h2, if_neg (by decide), if_neg (by decide)]
  have ep : progParserFor v = progParserFor 1 := by
    unfold progParserFor
    rw [if_neg h3, if_neg h2, if_neg (by decide), if_neg (by decide)]
  have el : sliderParserFor v = sliderParserFor 1 := by
    unfold sliderParserFor
    rw [if_neg h3, if_neg h2, if_neg (by decide), if_neg (by decide)]
  have ec : parseCombosSection d v = parseCombosSection d 1 := by
    funext t
    unfold parseCombosSection comboParserFor
    rw [if_neg h3, if_neg h2, if_neg (by decide), if_neg (by decide)]
  have et : parseTravsSection d v = parseTravsSection d 1 := by
    funext t
    unfold parseTravsSection travParserFor
    rw [if_neg h3, if_neg h2, if_neg (by decide), if_neg (by decide)]
  unfold Simplex.parseJSONversion
  rw [es, ep, el, ec, et]

/-- C4 (witness): with `encodingVersion = 7` the document is parsed exactly
as a version-1 document. -/
theorem parseJSONversion_unknown_version_eq_v1_witness :
    Simplex.empty.parseJSONversion docV7 7 = Simplex.empty.parseJSONversion docV7 1 :=
  parseJSONversion_unknown_version_eq_v1 Simplex.empty docV7 7 (by decide) (by decide)

/-! ## Trailing input entries are ignored -/

theorem get?_take_lt {α : Type} :
    ∀ (l : List α) (i n : Nat), i < n → (l.take n).get? i = l.get? i := by
  intro l
  induction l with
  | nil => intro i n _; simp
  | cons x xs ih =>
    intro i n h
    cases n with
    | zero => omega
    | succ m =>
      cases i with
      | zero => rfl
      | succ j => exact ih j m (by omega)

theorem getD_take_lt {α : Type} (l : List α) (i n : Nat) (d : α) (h : i < n) :
    (l.take n).getD i d = l.getD i d := by
  unfold List.getD
  rw [get?_take_lt l i n h]

theorem mapM_congr_opt {α β : Type} (l : List α) (f g : α → Option β)
    (h : ∀ x ∈ l, f x = g x) : l.mapM f = l.mapM g := by
  induction l with
  | nil => rfl
  | cons x xs ih =>
    rw [List.mapM_cons, List.mapM_cons, h x (List.mem_cons_self _ _),
        ih (fun y hy => h y (List.mem_cons_of_mem _ hy))]

theorem slider_store_take (vec : List Val) (n : Nat) (sl : Slider) (hidx : sl.index < n) :
    Slider.storeValue (vec.take n) sl = Slider.storeValue vec sl := by
  unfold Slider.storeValue
  rw [get?_take_lt vec sl.index n hidx]

theorem rectify_clamped_take (vec : List Val) (n i : Nat) (h : i < n) :
    ((rectify (vec.take n)).2.1).getD i 0 = ((rectify vec).2.1).getD i 0 := by
  unfold rectify
  dsimp only
  rw [List.map_take, List.map_take, getD_take_lt _ i n 0 h]

theorem rectify_inverses_take (vec : List Val) (n i : Nat) (h : i < n) :
    ((rectify (vec.take n)).2.2).getD i false = ((rectify vec).2.2).getD i false := by
  unfold rectify
  dsimp only
  rw [List.map_take, getD_take_lt _ i n false h]

theorem gather_congr (cl₁ cl₂ : List Val) (inv₁ inv₂ : List Bool) (n : Nat)
    (hcl : ∀ i, i < n → cl₁.getD i 0 = cl₂.getD i 0)
    (hinv : ∀ i, i < n → inv₁.getD i false = inv₂.getD i false) :
    ∀ stl : List ComboPair, (∀ p ∈ stl, p.1 < n) →
      gatherPoint cl₁ inv₁ stl = gatherPoint cl₂ inv₂ stl := by
  intro stl
  induction stl with
  | nil => intro _; rfl
  | cons q rest ih =>
    intro hb
    unfold gatherPoint
    dsimp only
    rw [hcl q.1 (hb q (List.mem_cons_self _ _)), hinv q.1 (hb q (List.mem_cons_self _ _)),
        ih (fun p hp => hb p (List.mem_cons_of_mem _ hp))]

theorem getD_map_fn {α β : Type} (f : α → β) :
    ∀ (l : List α) (i : Nat) (d : α), (l.map f).getD i (f d) = f (l.getD i d) := by
  intro l
  induction l with
  | nil => intro i d; rfl
  | cons x xs ih =>
    intro i d
    cases i with
    | zero => rfl
    | succ j => exact ih j d

theorem set_getD_self {α : Type} : ∀ (l : List α) (i : Nat) (d : α), l.set i (l.getD i d) = l := by
  intro l
  induction l with
  | nil => intro i d; rfl
  | cons x xs ih =>
    intro i d
    cases i with
    | zero => rfl
    | succ j => simp only [List.set_cons_succ, List.getD_cons_succ, ih]

theorem assignFloaters_cfg (tf : List Nat) (b : List Val) (fcs : List Int) :
    ∀ fl : List Combo, (assignFloaters tf b fcs fl).map cfgC = fl.map cfgC := by
  unfold assignFloaters
  generalize b.zip fcs = qs
  induction qs with
  | nil => intro fl; rfl
  | cons q qs ih =>
    intro fl
    rw [List.foldl_cons, ih]
    split
    · rw [List.map_set]
      have hval : cfgC { fl.getD (tf.getD q.2.toNat 0) default with value := q.1 } =
          cfgC (fl.getD (tf.getD q.2.toNat 0) default) := rfl
      rw [hval, ← getD_map_fn cfgC fl _ default, set_getD_self]
    · rfl

theorem acceptLoop_cfg (tf : List Nat) (up : List (List Val)) (ms : List Int) (vec : List Val) :
    ∀ (sms : List (List Int)) (fl : List Combo),
      (acceptLoop tf up ms vec sms fl).map cfgC = fl.map cfgC := by
  intro sms
  induction sms with
  | nil => intro fl; rfl
  | cons sm rest ih =>
    intro fl
    unfold acceptLoop
    dsimp only
    split
    · exact assignFloaters_cfg tf _ _ fl
    · exact ih fl

theorem trispace_store_cfg (cl : List Val) (inv : List Bool) (fl : List Combo) (ts : TriSpace) :
    (ts.storeValue cl inv fl).map cfgC = fl.map cfgC := by
  unfold TriSpace.storeValue
  dsimp only
  rcases hg : gatherPoint cl inv (fl.getD (ts.floaters.headD 0) default).stateList with _ | si
  · simp only [hg]
  · simp only [hg]
    split
    · rfl
    · rcases hlk : List.lookup (pointToSimp si.2) ts.simplexMap with _ | sms
      · simp only [hlk]
      · simp only [hlk]
        exact acceptLoop_cfg _ _ _ _ sms fl

theorem trispace_store_congr (cl₁ cl₂ : List Val) (inv₁ inv₂ : List Bool) (n : Nat)
    (hcl : ∀ i, i < n → cl₁.getD i 0 = cl₂.getD i 0)
    (hinv : ∀ i, i < n → inv₁.getD i false = inv₂.getD i false)
    (ts : TriSpace) (fl : List Combo)
    (hstl : ∀ p ∈ (fl.getD (ts.floaters.headD 0) default).stateList, p.1 < n) :
    ts.storeValue cl₁ inv₁ fl = ts.storeValue cl₂ inv₂ fl := by
  unfold TriSpace.storeValue
  dsimp only
  rw [gather_congr cl₁ cl₂ inv₁ inv₂ n hcl hinv _ hstl]

theorem spaces_fold_congr (s : Simplex) (cl₁ cl₂ : List Val) (inv₁ inv₂ : List Bool) (n : Nat)
    (hcl : ∀ i, i < n → cl₁.getD i 0 = cl₂.getD i 0)
    (hinv : ∀ i, i < n → inv₁.getD i false = inv₂.getD i false) :
    ∀ (sps : List TriSpace) (fl : List Combo),
      (∀ sp ∈ sps, ∀ p ∈ (s.floaters.getD (sp.floaters.headD 0) default).stateList, p.1 < n) →
      fl.map cfgC = s.floaters.map cfgC →
      sps.foldl (fun fl sp => sp.storeValue cl₁ inv₁ fl) fl =
        sps.foldl (fun fl sp => sp.storeValue cl₂ inv₂ fl) fl := by
  intro sps
  induction sps with
  | nil => intro fl _ _; rfl
  | cons sp sps ih =>
    intro fl hb hcfg
    rw [List.foldl_cons, List.foldl_cons]
    have hceq : cfgC (fl.getD (sp.floaters.headD 0) default) =
        cfgC (s.floaters.getD (sp.floaters.headD 0) default) := by
      rw [← getD_map_fn cfgC fl _ default, ← getD_map_fn cfgC s.floaters _ default, hcfg]
    have hstl : ∀ p ∈ (fl.getD (sp.floaters.headD 0) default).stateList, p.1 < n := by
      intro p hp
      have hsl : (fl.getD (sp.floaters.headD 0) default).stateList =
          (s.floaters.getD (sp.floaters.headD 0) default).stateList :=
        congrArg Prod.fst hceq
      exact hb sp (List.mem_cons_self _ _) p (hsl ▸ hp)
    rw [trispace_store_congr cl₁ cl₂ inv₁ inv₂ n hcl hinv sp fl hstl]
    exact ih (sp.storeValue cl₂ inv₂ fl)
      (fun sp' h' => hb sp' (List.mem_cons_of_mem _ h'))
      ((trispace_store_cfg cl₂ inv₂ fl sp).trans hcfg)

/-- C6 (amended): entries of the input vector beyond the slider count never
influence `solve` — the solve of `vec` equals the solve of its first
`sliders.length` entries (under the parser-established index invariant).
Shorter inputs are NOT padded with zeros: a slider whose index is beyond
the input reads out of bounds (see the counterexample). -/
theorem solve_ignores_trailing_input (softF : Val → Val → Val) (s : Simplex)
    (vec : List Val) (hwf : s.wfIndices) :
    s.solve softF vec = s.solve softF (vec.take s.sliders.length) := by
  unfold Simplex.solve
  have hsl : s.sliders.mapM (Slider.storeValue (vec.take s.sliders.length)) =
      s.sliders.mapM (Slider.storeValue vec) :=
    mapM_congr_opt _ _ _ (fun sl hmem => slider_store_take vec _ sl (hwf.1 sl hmem))
  rw [hsl]
  cases hm : s.sliders.mapM (Slider.storeValue vec) with
  | none => rfl
  | some sl =>
    simp only [Option.bind_eq_bind, Option.some_bind]
    have hfold :
        s.spaces.foldl (fun fl sp =>
          sp.storeValue (rectify (vec.take s.sliders.length)).2.1
            (rectify (vec.take s.sliders.length)).2.2 fl) s.floaters =
        s.spaces.foldl (fun fl sp =>
          sp.storeValue (rectify vec).2.1 (rectify vec).2.2 fl) s.floaters :=
      spaces_fold_congr s _ _ _ _ s.sliders.length
        (fun i hi => rectify_clamped_take vec _ i hi)
        (fun i hi => rectify_inverses_take vec _ i hi)
        s.spaces s.floaters hwf.2 rfl
    rw [hfold]

/-- C6 (witness): on the fixture `sA` (one slider) the trailing entry `5`
is ignored. -/
theorem solve_ignores_trailing_input_witness :
    sA.solve zeroSoft [1, 5] = sA.solve zeroSoft [1] :=
  solve_ignores_trailing_input zeroSoft sA [1, 5] (by decide)

end ClaimTheorems

end SimplexSpec

